import Mathlib

/-!
Verification of the compliance screening agent (`compliance_agent.py`).

The core of the program is `perform_screening`: it builds a prompt for an
external AI service, sends it, and tolerantly extracts a structured result
from the raw text answer.  Results are Python dicts whose values come from
`json.loads`; we model such dynamic values with a mutual inductive `Json`
type (objects keep insertion order, as Python dicts do).  `json.dumps` with
`indent=2` and `json.loads` are modelled by `Json.dumps` and `Json.parse`
below, faithful to CPython's `json` module on the fragment the program can
produce or consume (integers only — the program's data is strings, lists and
objects; floating point is out of scope, and strings are valid Unicode, so a
lone-surrogate `\uXXXX` escape is rejected rather than represented).

Impure calls are made explicit: the Anthropic transport becomes a function
`String → Except String String` from the prompt to either the concatenated
text of the response or the message of the raised exception, and the
`datetime.now()` readings become the parameters `nowIso` (isoformat) and
`today` (`%Y-%m-%d`).
-/

/-! ## JSON values (the shape of Python's parsed-JSON data) -/

mutual
inductive Json : Type where
  | null : Json
  | bool : Bool → Json
  | num : Int → Json
  | str : String → Json
  | arr : JArr → Json
  | obj : JObj → Json
inductive JArr : Type where
  | nil : JArr
  | cons : Json → JArr → JArr
inductive JObj : Type where
  | nil : JObj
  | cons : String → Json → JObj → JObj
end

def JArr.ofList : List Json → JArr
  | [] => JArr.nil
  | x :: t => JArr.cons x (JArr.ofList t)

def JObj.ofList : List (String × Json) → JObj
  | [] => JObj.nil
  | (k, v) :: t => JObj.cons k v (JObj.ofList t)

/-- Python `d[key]` read access (objects built by the parser never repeat a
key, so first match is the only match). -/
def JObj.lookup : JObj → String → Option Json
  | JObj.nil, _ => none
  | JObj.cons k v t, key => if k = key then some v else JObj.lookup t key

/-- Python `d[key] = val`: replace the value in place if the key exists
(keeping its position, as CPython dicts do), else append the pair. -/
def JObj.set : JObj → String → Json → JObj
  | JObj.nil, key, val => JObj.cons key val JObj.nil
  | JObj.cons k v t, key, val =>
      if k = key then JObj.cons k val t else JObj.cons k v (JObj.set t key val)

/-- `list(d.keys())` in insertion order. -/
def JObj.keys : JObj → List String
  | JObj.nil => []
  | JObj.cons k _ t => k :: JObj.keys t

def JObj.toPairs : JObj → List (String × Json)
  | JObj.nil => []
  | JObj.cons k v t => (k, v) :: JObj.toPairs t

/-- Build a dict from parsed members in order, with Python dict assignment
semantics (`d[k] = v` one pair at a time). -/
def JObj.ofPairs (ps : List (String × Json)) : JObj :=
  ps.foldl (fun o kv => JObj.set o kv.1 kv.2) JObj.nil

/-- Observer: a string-valued field. -/
def Json.asString : Json → Option String
  | Json.str s => some s
  | _ => none

def JArr.toList : JArr → List Json
  | JArr.nil => []
  | JArr.cons x t => x :: JArr.toList t

/-- Observer: a list of strings (e.g. `recommendations`). -/
def Json.asStringList : Json → Option (List String)
  | Json.arr a =>
      let rec go : JArr → Option (List String)
        | JArr.nil => some []
        | JArr.cons (Json.str s) t =>
            match go t with
            | some l => some (s :: l)
            | none => none
        | JArr.cons _ _ => none
      go a
  | _ => none

/-! ## Characters: whitespace, digits, hex, JSON string escaping

`escapeChar` follows CPython's `json.encoder.py_encode_basestring_ascii`
(the default `ensure_ascii=True`): `"` and `\` and the five short control
escapes, `\uXXXX` for other control and all non-ASCII characters, and a
surrogate pair for code points beyond the BMP. -/

def braceOpen : Char := Char.ofNat 123

def braceClose : Char := Char.ofNat 125

def isWsChar (c : Char) : Bool :=
  c = ' ' || c = '\t' || c = '\n' || c = '\r'

def skipWs : List Char → List Char
  | [] => []
  | c :: cs => if isWsChar c then skipWs cs else c :: cs

def hexDigitChar (n : Nat) : Char :=
  if n < 10 then Char.ofNat (48 + n) else Char.ofNat (87 + n)

def hexVal (c : Char) : Option Nat :=
  if 48 ≤ c.toNat ∧ c.toNat ≤ 57 then some (c.toNat - 48)
  else if 97 ≤ c.toNat ∧ c.toNat ≤ 102 then some (c.toNat - 87)
  else if 65 ≤ c.toNat ∧ c.toNat ≤ 70 then some (c.toNat - 55)
  else none

def toHex4 (n : Nat) : List Char :=
  [hexDigitChar (n / 4096 % 16), hexDigitChar (n / 256 % 16),
   hexDigitChar (n / 16 % 16), hexDigitChar (n % 16)]

def hex4 (a b c d : Char) : Option Nat :=
  match hexVal a, hexVal b, hexVal c, hexVal d with
  | some va, some vb, some vc, some vd => some (va * 4096 + vb * 256 + vc * 16 + vd)
  | _, _, _, _ => none

def escapeChar (c : Char) : List Char :=
  if c = '"' then ['\\', '"']
  else if c = '\\' then ['\\', '\\']
  else if c = Char.ofNat 8 then ['\\', 'b']
  else if c = Char.ofNat 12 then ['\\', 'f']
  else if c = '\n' then ['\\', 'n']
  else if c = '\r' then ['\\', 'r']
  else if c = '\t' then ['\\', 't']
  else if c.toNat < 32 then '\\' :: 'u' :: toHex4 c.toNat
  else if c.toNat < 127 then [c]
  else if c.toNat < 65536 then '\\' :: 'u' :: toHex4 c.toNat
  else
    ('\\' :: 'u' :: toHex4 (55296 + (c.toNat - 65536) / 1024)) ++
    ('\\' :: 'u' :: toHex4 (56320 + (c.toNat - 65536) % 1024))

def escapeChars : List Char → List Char
  | [] => []
  | c :: cs => escapeChar c ++ escapeChars cs

/-- A JSON string literal: quote, escaped body, quote. -/
def dumpStr (s : String) : List Char :=
  '"' :: (escapeChars s.data ++ ['"'])

def natDigitsAux : Nat → Nat → List Char
  | 0, _ => []
  | f + 1, n =>
    if n < 10 then [Char.ofNat (48 + n)]
    else natDigitsAux f (n / 10) ++ [Char.ofNat (48 + n % 10)]

/-- Decimal digits of a natural number, most significant first (the fuel
`n + 1` always suffices since `n / 10 < n`). -/
def natDigits (n : Nat) : List Char := natDigitsAux (n + 1) n

def intChars (n : Int) : List Char :=
  if n < 0 then '-' :: natDigits n.natAbs else natDigits n.toNat

def indentChars (d : Nat) : List Char := List.replicate (2 * d) ' '

/-! ## `json.dumps(·, indent=2)`

With `indent=2` CPython separates items by `",\n"` plus the indentation of
the nesting level, puts `": "` between a key and its value, and renders
empty containers as `[]` / `{}`. -/

mutual
def sizeJ : Json → Nat
  | Json.null => 1
  | Json.bool _ => 1
  | Json.num _ => 1
  | Json.str _ => 1
  | Json.arr a => 1 + sizeA a
  | Json.obj o => 1 + sizeO o
def sizeA : JArr → Nat
  | JArr.nil => 1
  | JArr.cons x t => 1 + sizeJ x + sizeA t
def sizeO : JObj → Nat
  | JObj.nil => 1
  | JObj.cons _ v t => 1 + sizeJ v + sizeO t
end

mutual
def dumpVal (d : Nat) : Json → List Char
  | Json.null => ['n', 'u', 'l', 'l']
  | Json.bool b => if b then ['t', 'r', 'u', 'e'] else ['f', 'a', 'l', 's', 'e']
  | Json.num n => intChars n
  | Json.str s => dumpStr s
  | Json.arr JArr.nil => ['[', ']']
  | Json.arr (JArr.cons x t) =>
      '[' :: '\n' ::
        (dumpItems (d + 1) (JArr.cons x t) ++ '\n' :: (indentChars d ++ [']']))
  | Json.obj JObj.nil => [braceOpen, braceClose]
  | Json.obj (JObj.cons k v t) =>
      braceOpen :: '\n' ::
        (dumpMembers (d + 1) (JObj.cons k v t) ++ '\n' :: (indentChars d ++ [braceClose]))
def dumpItems (d : Nat) : JArr → List Char
  | JArr.nil => []
  | JArr.cons x JArr.nil => indentChars d ++ dumpVal d x
  | JArr.cons x (JArr.cons y t) =>
      (indentChars d ++ dumpVal d x) ++ ',' :: '\n' :: dumpItems d (JArr.cons y t)
def dumpMembers (d : Nat) : JObj → List Char
  | JObj.nil => []
  | JObj.cons k v JObj.nil => indentChars d ++ (dumpStr k ++ ':' :: ' ' :: dumpVal d v)
  | JObj.cons k v (JObj.cons k2 v2 t) =>
      (indentChars d ++ (dumpStr k ++ ':' :: ' ' :: dumpVal d v)) ++
        ',' :: '\n' :: dumpMembers d (JObj.cons k2 v2 t)
end

def Json.dumps (v : Json) : String := String.mk (dumpVal 0 v)

/-! ## `json.loads`

A fuel-indexed recursive-descent parser over `List Char`, mirroring CPython's
`json.scanner`/`json.decoder` on the fragment described at the top of the
file: objects, arrays, strings (with the strict-mode rejection of raw control
characters, the nine escapes, `\uXXXX` and surrogate-pair recombination),
`true`/`false`/`null`, and integer numbers (no leading zeros, optional minus).
Fuel only bounds the recursion depth of the mutual functions; `Json.parse`
supplies more fuel than any input can consume. -/

def isDigitB (c : Char) : Bool :=
  48 ≤ c.toNat && c.toNat ≤ 57

/-- Digits of a number token and its value; rejects an empty or
leading-zero digit string, as the JSON number grammar does. -/
def parseNatTok (cs : List Char) : Option (Nat × List Char) :=
  match cs.span (fun c => isDigitB c) with
  | ([], _) => none
  | (d :: ds, rest) =>
      if d = '0' ∧ ds ≠ [] then none
      else some ((d :: ds).foldl (fun a c => a * 10 + (c.toNat - 48)) 0, rest)

def unescapeSimple (c : Char) : Option Char :=
  if c = '"' then some '"'
  else if c = '\\' then some '\\'
  else if c = '/' then some '/'
  else if c = 'b' then some (Char.ofNat 8)
  else if c = 'f' then some (Char.ofNat 12)
  else if c = 'n' then some '\n'
  else if c = 'r' then some '\r'
  else if c = 't' then some '\t'
  else none

/-- Decode one escape sequence (the part after the backslash): one of the
nine simple escapes, or `uXXXX` (with surrogate-pair recombination; a lone
surrogate is rejected, see the header comment).  Returns the decoded
character and the remaining input. -/
def parseEscape : List Char → Option (Char × List Char)
  | [] => none
  | e :: rest2 =>
    if e = 'u' then
      match rest2 with
      | a :: b :: c3 :: d :: rest3 =>
        match hex4 a b c3 d with
        | none => none
        | some n =>
          if 55296 ≤ n ∧ n ≤ 56319 then
            match rest3 with
            | b1 :: u1 :: a2 :: b2 :: c4 :: d2 :: rest4 =>
              if b1 = '\\' ∧ u1 = 'u' then
                match hex4 a2 b2 c4 d2 with
                | none => none
                | some m =>
                  if 56320 ≤ m ∧ m ≤ 57343 then
                    some (Char.ofNat (65536 + (n - 55296) * 1024 + (m - 56320)), rest4)
                  else none
              else none
            | _ => none
          else if 56320 ≤ n ∧ n ≤ 57343 then none
          else some (Char.ofNat n, rest3)
      | _ => none
    else
      match unescapeSimple e with
      | none => none
      | some ch => some (ch, rest2)

/-- A successful escape consumes at least one character (needed for the
termination of `parseStrBody`). -/
theorem parseEscape_shrinks : ∀ (es : List Char) (ch : Char) (rest2 : List Char),
    parseEscape es = some (ch, rest2) → rest2.length < es.length := by
  intro es ch rest2 h
  unfold parseEscape at h
  rcases es with _ | ⟨e, rest⟩
  · simp at h
  · by_cases hu : e = 'u'
    · simp only [hu, if_pos rfl] at h
      rcases rest with _ | ⟨a, _ | ⟨b, _ | ⟨c3, _ | ⟨d, rest3⟩⟩⟩⟩ <;> try simp at h
      rcases hh : hex4 a b c3 d with _ | n <;> rw [hh] at h <;> try simp at h
      by_cases hs1 : 55296 ≤ n ∧ n ≤ 56319
      · rw [if_pos hs1] at h
        rcases rest3 with _ | ⟨b1, _ | ⟨u1, _ | ⟨a2, _ | ⟨b2, _ | ⟨c4, _ | ⟨d2, rest4⟩⟩⟩⟩⟩⟩ <;>
          try simp at h
        obtain ⟨hb, h⟩ := h
        rcases hh2 : hex4 a2 b2 c4 d2 with _ | m <;> rw [hh2] at h
        · simp at h
        · simp only [Option.ite_none_right_eq_some, Option.some.injEq, Prod.mk.injEq] at h
          obtain ⟨hs2, hch, hrest⟩ := h
          subst hrest
          simp
          omega
      · rw [if_neg hs1] at h
        by_cases hs2 : 56320 ≤ n ∧ n ≤ 57343
        · rw [if_pos hs2] at h; simp at h
        · rw [if_neg hs2] at h
          injection h with h
          injection h with _ h
          subst h
          simp
          omega
    · simp only [if_neg hu] at h
      rcases hus : unescapeSimple e with _ | ch2 <;> rw [hus] at h <;> try simp at h
      rcases h with ⟨h1, h2⟩
      subst h2
      simp

/-- Scan a JSON string body up to the closing quote, decoding escapes.
Raw control characters are rejected (`json.loads` strict mode).  The fuel
decreases by one per consumed chunk (each at least one character), so
callers pass `length + 1` and the fuel can never run out. -/
def parseStrBody : Nat → List Char → Option (List Char × List Char)
  | 0, _ => none
  | _ + 1, [] => none
  | f + 1, c :: rest =>
    if c = '"' then some ([], rest)
    else if c = '\\' then
      match parseEscape rest with
      | none => none
      | some (ch, rest2) =>
        match parseStrBody f rest2 with
        | some (s, r) => some (ch :: s, r)
        | none => none
    else if c.toNat < 32 then none
    else
      match parseStrBody f rest with
      | some (s, r) => some (c :: s, r)
      | none => none

mutual
def parseVal : Nat → List Char → Option (Json × List Char)
  | 0, _ => none
  | Nat.succ f, input =>
    match skipWs input with
    | [] => none
    | c :: rest =>
      if c = braceOpen then
        match skipWs rest with
        | [] => none
        | c2 :: rest2 =>
          if c2 = braceClose then some (Json.obj JObj.nil, rest2)
          else
            match parseMembers f (c2 :: rest2) with
            | some (ps, r) => some (Json.obj (JObj.ofPairs ps), r)
            | none => none
      else if c = '[' then
        match skipWs rest with
        | [] => none
        | c2 :: rest2 =>
          if c2 = ']' then some (Json.arr JArr.nil, rest2)
          else
            match parseItems f (c2 :: rest2) with
            | some (a, r) => some (Json.arr a, r)
            | none => none
      else if c = '"' then
        match parseStrBody (rest.length + 1) rest with
        | some (s, r) => some (Json.str (String.mk s), r)
        | none => none
      else if c = '-' then
        match parseNatTok rest with
        | some (n, r) => some (Json.num (-(n : Int)), r)
        | none => none
      else if isDigitB c then
        match parseNatTok (c :: rest) with
        | some (n, r) => some (Json.num (n : Int), r)
        | none => none
      else
        match c :: rest with
        | 'n' :: 'u' :: 'l' :: 'l' :: r => some (Json.null, r)
        | 't' :: 'r' :: 'u' :: 'e' :: r => some (Json.bool true, r)
        | 'f' :: 'a' :: 'l' :: 's' :: 'e' :: r => some (Json.bool false, r)
        | _ => none
def parseItems : Nat → List Char → Option (JArr × List Char)
  | 0, _ => none
  | Nat.succ f, input =>
    match parseVal f input with
    | none => none
    | some (v, r) =>
      match skipWs r with
      | [] => none
      | c :: r2 =>
        if c = ',' then
          match parseItems f r2 with
          | some (t, r3) => some (JArr.cons v t, r3)
          | none => none
        else if c = ']' then some (JArr.cons v JArr.nil, r2)
        else none
def parseMembers : Nat → List Char → Option (List (String × Json) × List Char)
  | 0, _ => none
  | Nat.succ f, input =>
    match skipWs input with
    | [] => none
    | c :: rest =>
      if c = '"' then
        match parseStrBody (rest.length + 1) rest with
        | none => none
        | some (k, r) =>
          match skipWs r with
          | [] => none
          | c2 :: r2 =>
            if c2 = ':' then
              match parseVal f r2 with
              | none => none
              | some (v, r3) =>
                match skipWs r3 with
                | [] => none
                | c3 :: r4 =>
                  if c3 = ',' then
                    match parseMembers f r4 with
                    | some (t, r5) => some ((String.mk k, v) :: t, r5)
                    | none => none
                  else if c3 = braceClose then some ([(String.mk k, v)], r4)
                  else none
            else none
      else none
end

/-- `json.loads`: the whole input must be one JSON value surrounded only by
whitespace.  The fuel `4 * length + 16` exceeds the number of mutual-parser
steps any input of that length can drive (each step past the first few
consumes at least one character before recursing). -/
def Json.parse (s : String) : Option Json :=
  match parseVal (4 * s.data.length + 16) s.data with
  | some (v, rest) => if skipWs rest = [] then some v else none
  | none => none

/-! ## The source program (`compliance_agent.py`)

`perform_screening(entity, search_type, api_key)` is modelled with the
transport (client construction + `client.messages.create` + concatenation of
the text blocks) abstracted as a function from the prompt it is given to
`Except` — `Except.error msg` stands for a raised exception with
`str(e) = msg`, which the source's outer `try`/`except` turns into the error
dict.  `perform_screening_log` additionally returns the list of prompts the
transport was invoked with, making the side effect visible to theorems. -/

/-- Line 81: `search_context = "..." if search_type == "comprehensive" else
"negative news"`.  Note that the source computes this value and then never
uses it: the f-string built below does not interpolate it. -/
def search_context (search_type : String) : String :=
  if search_type = "comprehensive" then
    "controversy scandal investigation lawsuit sanction fine penalty fraud"
  else "negative news"

/-- Lines 83–103: the prompt f-string.  Its only interpolation is
`{entity}`; `search_context` does not appear in it, so the prompt does not
depend on `search_type`. -/
def screening_prompt (entity search_type : String) : String :=
  let _search_context := search_context search_type
  "You are a compliance screening AI agent. Search for negative news, controversies, legal issues, sanctions, and regulatory problems related to: \"" ++
  entity ++
  "\"\n\nPlease search comprehensively and then provide a structured analysis in JSON format with the following structure:\n\x7b\n  \"riskLevel\": \"HIGH|MEDIUM|LOW|CLEAR\",\n  \"summary\": \"Brief overview of findings\",\n  \"findings\": [\n    \x7b\n      \"category\": \"category name\",\n      \"severity\": \"HIGH|MEDIUM|LOW\",\n      \"title\": \"finding title\",\n      \"description\": \"detailed description\",\n      \"date\": \"date if available\",\n      \"source\": \"source name\",\n      \"url\": \"source url if available\"\n    \x7d\n  ],\n  \"recommendations\": [\"list of recommendations\"]\n\x7d\n\nSearch thoroughly and provide accurate, factual information only. If no significant negative news is found, indicate CLEAR risk level."

/-- `s.find(c)`: index of the first occurrence, or `None` for Python's -1. -/
def pyFind (cs : List Char) (c : Char) : Option Nat :=
  List.findIdx? (fun x => x = c) cs

/-- `s.rfind(c)`: index of the last occurrence, or `None` for Python's -1. -/
def pyRfind (cs : List Char) (c : Char) : Option Nat :=
  match List.findIdx? (fun x => x = c) cs.reverse with
  | some i => some (cs.length - 1 - i)
  | none => none

/-- Lines 127–130: `json_start = full_response.find('{')`,
`json_end = full_response.rfind('}') + 1`, and the guarded slice
`full_response[json_start:json_end]`; `None` when
`json_start != -1 and json_end > json_start` fails (which the source turns
into `raise ValueError("No JSON found")`, caught by the bare `except`). -/
def json_span (full_response : String) : Option String :=
  let cs := full_response.data
  match pyFind cs braceOpen, pyRfind cs braceClose with
  | some json_start, some jc =>
      if json_start < jc + 1 then
        some (String.mk ((cs.drop json_start).take (jc + 1 - json_start)))
      else none
  | some _, none => none
  | none, _ => none

/-- Line 131: `json.loads(json_str)`. -/
def json_loads (s : String) : Option Json := Json.parse s

/-- Lines 136–148: the fallback dict built when no JSON span is found or
`json.loads` raises.  Python truthiness of `full_response` is the test
against the empty string. -/
def fallback_results (full_response : String) (today : String) : JObj :=
  JObj.ofList [
    ("riskLevel", Json.str "MEDIUM"),
    ("summary", Json.str (if full_response = "" then "Unable to parse response"
                          else String.mk (full_response.data.take 300))),
    ("findings", Json.arr (JArr.ofList [Json.obj (JObj.ofList [
        ("category", Json.str "General"),
        ("severity", Json.str "MEDIUM"),
        ("title", Json.str "Analysis Results"),
        ("description", Json.str (if full_response = "" then "No detailed findings available"
                                  else full_response)),
        ("date", Json.str today),
        ("source", Json.str "AI Analysis")])])),
    ("recommendations", Json.arr (JArr.ofList [
        Json.str "Review the detailed findings",
        Json.str "Conduct further due diligence"]))]

/-- The successful-parse branch of lines 126–134: the parsed dict, or `none`
when the fallback is taken.  (`json.loads` on a span that starts with the
first `{` yields a dict whenever it succeeds, so the non-object case cannot
occur; it is mapped to `none` like the other failures.) -/
def parse_attempt (full_response : String) : Option JObj :=
  match json_span full_response with
  | some json_str =>
      match json_loads json_str with
      | some (Json.obj kvs) => some kvs
      | _ => none
  | none => none

/-- Lines 126–148 as a whole: parsed dict or fallback dict. -/
def parse_results (full_response today : String) : JObj :=
  match parse_attempt full_response with
  | some kvs => kvs
  | none => fallback_results full_response today

/-- Lines 151–153: `results['entity'] = entity`,
`results['timestamp'] = datetime.now().isoformat()`,
`results['searchType'] = search_type`. -/
def add_metadata (results : JObj) (entity search_type nowIso : String) : JObj :=
  ((results.set "entity" (Json.str entity)).set "timestamp" (Json.str nowIso)).set
    "searchType" (Json.str search_type)

/-- Lines 119–155: the whole ResultExtractor (parse or fall back, then stamp
the metadata). -/
def extract_results (full_response entity search_type nowIso today : String) : JObj :=
  add_metadata (parse_results full_response today) entity search_type nowIso

/-- Lines 158–165: the dict returned from the outer `except` handler. -/
def error_results (entity nowIso msg : String) : JObj :=
  JObj.ofList [
    ("entity", Json.str entity),
    ("timestamp", Json.str nowIso),
    ("riskLevel", Json.str "ERROR"),
    ("summary", Json.str ("Error during screening: " ++ msg)),
    ("findings", Json.arr JArr.nil),
    ("recommendations", Json.arr (JArr.ofList [
        Json.str "Check API key",
        Json.str "Verify network connection",
        Json.str "Try again"]))]

/-- Lines 75–165: `perform_screening`, with the transport's invocations
logged (second component).  The prompt is built and the transport invoked
unconditionally — the source has no input validation. -/
def perform_screening_log (transport : String → Except String String)
    (entity search_type nowIso today : String) : JObj × List String :=
  let prompt := screening_prompt entity search_type
  match transport prompt with
  | Except.ok full_response =>
      (extract_results full_response entity search_type nowIso today, [prompt])
  | Except.error msg => (error_results entity nowIso msg, [prompt])

def perform_screening (transport : String → Except String String)
    (entity search_type nowIso today : String) : JObj :=
  (perform_screening_log transport entity search_type nowIso today).1

/-- Lines 232–234: `st.session_state.history.insert(0, results)` followed by
`if len(...) > 10: ... = ...[:10]`. -/
def history_append {α : Type} (history : List α) (results : α) : List α :=
  let h := results :: history
  if h.length > 10 then h.take 10 else h

/-- Lines 179–181: `json.dumps(results, indent=2)`. -/
def export_results (results : Json) : String := Json.dumps results

/-- Line 225: the Start Screening button's
`disabled=not api_key or not entity` (Python truthiness of strings). -/
def start_button_disabled (api_key entity : String) : Bool :=
  api_key = "" || entity = ""

/-! ## Auxiliary observers and measures -/

/-- Bool test: `pat` is a prefix of `text`. -/
def isPrefixB : List Char → List Char → Bool
  | [], _ => true
  | _ :: _, [] => false
  | p :: ps, c :: cs => p = c && isPrefixB ps cs

/-- Bool test: `pat` occurs as a contiguous substring of `text`
(Python's `pat in text`). -/
def containsSub (pat : List Char) : List Char → Bool
  | [] => isPrefixB pat []
  | c :: t => isPrefixB pat (c :: t) || containsSub pat t

def keyMemB (k : String) : JObj → Bool
  | JObj.nil => false
  | JObj.cons k2 _ t => k = k2 || keyMemB k t

/- No object anywhere in the value repeats a key (always true of values
produced by `json.loads`, and of the program's own dicts). -/
mutual
def wfV : Json → Bool
  | Json.null => true
  | Json.bool _ => true
  | Json.num _ => true
  | Json.str _ => true
  | Json.arr a => wfA a
  | Json.obj o => wfO o
def wfA : JArr → Bool
  | JArr.nil => true
  | JArr.cons x t => wfV x && wfA t
def wfO : JObj → Bool
  | JObj.nil => true
  | JObj.cons k v t => !keyMemB k t && wfV v && wfO t
end

/- Fuel needed by `parseVal` to parse this value (one unit per entry into a
mutual parser function along any path). -/
mutual
def needV : Json → Nat
  | Json.null => 1
  | Json.bool _ => 1
  | Json.num _ => 1
  | Json.str _ => 1
  | Json.arr JArr.nil => 1
  | Json.arr (JArr.cons x t) => 1 + needI (JArr.cons x t)
  | Json.obj JObj.nil => 1
  | Json.obj (JObj.cons k v t) => 1 + needM (JObj.cons k v t)
def needI : JArr → Nat
  | JArr.nil => 1
  | JArr.cons x JArr.nil => 1 + needV x
  | JArr.cons x (JArr.cons y t) => 1 + needV x + needI (JArr.cons y t)
def needM : JObj → Nat
  | JObj.nil => 1
  | JObj.cons _ v JObj.nil => 1 + needV v
  | JObj.cons _ v (JObj.cons k2 v2 t) => 1 + needV v + needM (JObj.cons k2 v2 t)
end

/-! ## The `ScreeningResult` record and its interchange form

§3 and §6 of the design: the result record as the program lays it out (the
search-mode field is stored under the key `searchType`), its serialization
through `export_results` (= `json.dumps(·, indent=2)`), and deserialization
through `json.loads`. -/

structure Finding where
  category : String
  severity : String
  title : String
  description : String
  date : Option String
  sourceName : Option String
  url : Option String

structure ScreeningResult where
  entity : String
  timestamp : String
  searchType : String
  riskLevel : String
  summary : String
  findings : List Finding
  recommendations : List String

def optStrField (k : String) (v : Option String) (t : JObj) : JObj :=
  match v with
  | none => t
  | some s => JObj.cons k (Json.str s) t

def Finding.toJson (f : Finding) : Json :=
  Json.obj (JObj.cons "category" (Json.str f.category)
    (JObj.cons "severity" (Json.str f.severity)
      (JObj.cons "title" (Json.str f.title)
        (JObj.cons "description" (Json.str f.description)
          (optStrField "date" f.date
            (optStrField "source" f.sourceName
              (optStrField "url" f.url JObj.nil)))))))

/-- A required string field of a parsed object. -/
def reqStr (o : JObj) (k : String) : Option String :=
  match JObj.lookup o k with
  | some (Json.str s) => some s
  | _ => none

/-- An optional string field: absent is fine, present must be a string. -/
def optStr (o : JObj) (k : String) : Option (Option String) :=
  match JObj.lookup o k with
  | none => some none
  | some (Json.str s) => some (some s)
  | some _ => none

def Finding.fromJson : Json → Option Finding
  | Json.obj o =>
    match reqStr o "category", reqStr o "severity", reqStr o "title",
        reqStr o "description" with
    | some c, some sv, some t, some d =>
      match optStr o "date", optStr o "source", optStr o "url" with
      | some dt, some src, some u => some ⟨c, sv, t, d, dt, src, u⟩
      | _, _, _ => none
    | _, _, _, _ => none
  | _ => none

def findingsFrom : JArr → Option (List Finding)
  | JArr.nil => some []
  | JArr.cons x t =>
    match Finding.fromJson x, findingsFrom t with
    | some f, some l => some (f :: l)
    | _, _ => none

def strListFrom : JArr → Option (List String)
  | JArr.nil => some []
  | JArr.cons (Json.str s) t =>
    match strListFrom t with
    | some l => some (s :: l)
    | none => none
  | JArr.cons _ _ => none

def ScreeningResult.toJson (r : ScreeningResult) : Json :=
  Json.obj (JObj.ofList [
    ("riskLevel", Json.str r.riskLevel),
    ("summary", Json.str r.summary),
    ("findings", Json.arr (JArr.ofList (r.findings.map Finding.toJson))),
    ("recommendations", Json.arr (JArr.ofList (r.recommendations.map Json.str))),
    ("entity", Json.str r.entity),
    ("timestamp", Json.str r.timestamp),
    ("searchType", Json.str r.searchType)])

def ScreeningResult.fromJson : Json → Option ScreeningResult
  | Json.obj o =>
    match reqStr o "entity", reqStr o "timestamp", reqStr o "searchType",
        reqStr o "riskLevel", reqStr o "summary" with
    | some e, some ts, some st, some rl, some sm =>
      match JObj.lookup o "findings", JObj.lookup o "recommendations" with
      | some (Json.arr fa), some (Json.arr ra) =>
        match findingsFrom fa, strListFrom ra with
        | some fs, some rs => some ⟨e, ts, st, rl, sm, fs, rs⟩
        | _, _ => none
      | _, _ => none
    | _, _, _, _, _ => none
  | _ => none

def serialize_result (r : ScreeningResult) : String :=
  export_results (ScreeningResult.toJson r)

def deserialize_result (s : String) : Option ScreeningResult :=
  (Json.parse s).bind ScreeningResult.fromJson

/-! ## Auxiliary definitions for the serialization round trip -/

/-- A list of whitespace characters only. -/
def WsOnly (W : List Char) : Prop := ∀ c ∈ W, isWsChar c = true

/-- The head, if any, is not a digit (so a greedy number token cannot
swallow it). -/
def headNotDigitB : List Char → Bool
  | [] => true
  | c :: _ => !isDigitB c

/-- What `dumpItems` emits after the first item. -/
def dumpItemsTail (d : Nat) : JArr → List Char
  | JArr.nil => []
  | JArr.cons y t => ',' :: '\n' :: dumpItems d (JArr.cons y t)

/-- What `dumpMembers` emits after the first member. -/
def dumpMembersTail (d : Nat) : JObj → List Char
  | JObj.nil => []
  | JObj.cons k v t => ',' :: '\n' :: dumpMembers d (JObj.cons k v t)

/-- Dict concatenation (no key collision handling; used only under
`wfO`-style freshness hypotheses). -/
def appendO : JObj → JObj → JObj
  | JObj.nil, b => b
  | JObj.cons k v t, b => JObj.cons k v (appendO t b)

/-- The raw agent output of the spec's end-to-end scenario (§8.9). -/
def acmeRaw : String :=
  "Some preamble text \x7b\"riskLevel\":\"LOW\",\"summary\":\"Minor complaint found\",\"findings\":[],\"recommendations\":[\"Monitor periodically\"]\x7d trailing notes"

/-- What `json.loads` yields on the brace-delimited span of `acmeRaw`. -/
def acmePayload : JObj :=
  JObj.cons "riskLevel" (Json.str "LOW")
    (JObj.cons "summary" (Json.str "Minor complaint found")
      (JObj.cons "findings" (Json.arr JArr.nil)
        (JObj.cons "recommendations"
          (Json.arr (JArr.cons (Json.str "Monitor periodically") JArr.nil)) JObj.nil)))

/-! # Lemmas -/

theorem JObj.lookup_set : ∀ (o : JObj) (key k : String) (v : Json),
    JObj.lookup (JObj.set o key v) k = if k = key then some v else JObj.lookup o k
  | JObj.nil, key, k, v => by
    by_cases h : k = key
    · simp [JObj.set, JObj.lookup, h]
    · simp [JObj.set, JObj.lookup, h, Ne.symm h]
  | JObj.cons k0 v0 t, key, k, v => by
    by_cases h0 : k0 = key
    · subst h0
      by_cases hk : k = k0
      · simp [JObj.set, JObj.lookup, hk]
      · simp [JObj.set, JObj.lookup, hk, Ne.symm hk]
    · by_cases hk : k0 = k
      · subst hk
        have hkey : ¬ k0 = key := h0
        simp [JObj.set, JObj.lookup, h0, hkey]
      · simp [JObj.set, JObj.lookup, h0, hk, JObj.lookup_set t key k v]

theorem history_append_eq {α : Type} (h : List α) (r : α) :
    history_append h r = (r :: h).take 10 := by
  by_cases hl : (r :: h).length > 10
  · simp [history_append, hl]
  · have hle : (r :: h).length ≤ 10 := by omega
    simp [history_append, hl, List.take_of_length_le hle]

theorem take10_append_take10 {α : Type} (a b : List α) :
    (a ++ b.take 10).take 10 = (a ++ b).take 10 := by
  rw [List.take_append_eq_append_take, List.take_append_eq_append_take, List.take_take]
  have hm : min (10 - a.length) 10 = 10 - a.length := by omega
  rw [hm]

theorem foldl_history_append {α : Type} :
    ∀ (rs : List α) (h : List α) (r : α),
      List.foldl history_append h (r :: rs) = ((r :: rs).reverse ++ h).take 10 := by
  intro rs
  induction rs with
  | nil => intro h r; simp [history_append_eq]
  | cons r2 rs2 ih =>
    intro h r
    have step : List.foldl history_append h (r :: r2 :: rs2)
        = List.foldl history_append (history_append h r) (r2 :: rs2) := rfl
    rw [step, ih, history_append_eq]
    have hsh : ((r :: r2 :: rs2).reverse ++ h) = ((r2 :: rs2).reverse ++ (r :: h)) := by simp
    rw [hsh, take10_append_take10]

theorem parse_results_of_attempt (fr today : String) (kvs : JObj)
    (h : parse_attempt fr = some kvs) : parse_results fr today = kvs := by
  simp [parse_results, h]

theorem parse_results_of_fail (fr today : String)
    (h : parse_attempt fr = none) :
    parse_results fr today = fallback_results fr today := by
  simp [parse_results, h]

theorem extract_results_lookup_meta (fr e st now today : String) :
    (extract_results fr e st now today).lookup "entity" = some (Json.str e) ∧
    (extract_results fr e st now today).lookup "timestamp" = some (Json.str now) ∧
    (extract_results fr e st now today).lookup "searchType" = some (Json.str st) := by
  refine ⟨?_, ?_, ?_⟩ <;> simp [extract_results, add_metadata, JObj.lookup_set]

theorem extract_results_lookup_other (fr e st now today k : String)
    (h1 : k ≠ "entity") (h2 : k ≠ "timestamp") (h3 : k ≠ "searchType") :
    (extract_results fr e st now today).lookup k = (parse_results fr today).lookup k := by
  simp [extract_results, add_metadata, JObj.lookup_set, h1, h2, h3]

/-! # Claims -/

/-- C1 (counterexample): `perform_screening` invoked with an empty entity
string does reach the transport: with a stub transport, the invocation log
after `perform_screening("", "comprehensive", ...)` has one entry, so the
external agent service *is* invoked, contradicting the claimed
InvalidInput rejection before any transport call. -/
theorem c1_counterexample :
    ((perform_screening_log (fun _ => Except.ok "agent response") ""
        "comprehensive" "T" "D").2).length = 1 := rfl

/-- C1 (amended): `perform_screening` performs no input validation — for
every entity (the empty string included) it builds the prompt and invokes
the transport exactly once; empty entities are kept out only by the UI,
whose Start Screening button is disabled whenever the entity (or the API
key) is empty. -/
theorem c1_amended :
    (∀ (transport : String → Except String String)
        (entity search_type nowIso today : String),
      (perform_screening_log transport entity search_type nowIso today).2
        = [screening_prompt entity search_type]) ∧
    (∀ api_key : String, start_button_disabled api_key "" = true) := by
  constructor
  · intro transport entity search_type nowIso today
    rcases htr : transport (screening_prompt entity search_type) with fr | msg <;>
      simp [perform_screening_log, htr]
  · intro api_key
    simp [start_button_disabled]

set_option maxRecDepth 8192 in
/-- C2 (code bug): the mode-specific keyword hint is computed (line 81's
`search_context`, which differs between the two modes) but never
interpolated into the prompt f-string, so the built prompt is identical in
comprehensive and basic mode and contains no "scandal" keyword hint,
against the claimed expanded term set in comprehensive mode. -/
theorem c2_divergence :
    search_context "comprehensive" ≠ search_context "basic" ∧
    (∀ entity : String,
      screening_prompt entity "comprehensive" = screening_prompt entity "basic") ∧
    containsSub "scandal".data (screening_prompt "ExampleCo" "comprehensive").data = false := by
  refine ⟨by decide, fun entity => rfl, by decide⟩

/-- C7 (counterexample): appending 15 results to an empty history leaves
the last ten, so the result of the 6th call (here the value 6) is still
present — only the 5 oldest calls are evicted, not 6 as claimed. -/
theorem c7_counterexample :
    List.foldl history_append ([] : List Nat)
        [1, 2, 3, 4, 5, 6, 7, 8, 9, 10, 11, 12, 13, 14, 15]
      = [15, 14, 13, 12, 11, 10, 9, 8, 7, 6] ∧
    6 ∈ List.foldl history_append ([] : List Nat)
        [1, 2, 3, 4, 5, 6, 7, 8, 9, 10, 11, 12, 13, 14, 15] := by
  refine ⟨rfl, by decide⟩

/-- C7 (amended): `history_append` prepends and truncates to the first 10
entries; for any starting store, after 15 sequential appends the store
holds exactly the 10 most recent results, newest first (so the most recent
call's result is at position 0 and the 5 oldest calls' results, together
with every pre-existing entry, are gone). -/
theorem c7_amended {α : Type} (h rs : List α) (h15 : rs.length = 15) :
    List.foldl history_append h rs = rs.reverse.take 10 ∧
    (List.foldl history_append h rs).length = 10 := by
  cases rs with
  | nil => simp at h15
  | cons r rs2 =>
    have hfold := foldl_history_append rs2 h r
    have hlen : 10 ≤ ((r :: rs2).reverse).length := by
      simp at h15 ⊢
      omega
    constructor
    · rw [hfold, List.take_append_of_le_length hlen]
    · rw [hfold, List.length_take]
      simp at h15 ⊢
      omega

/-- C7 (witness): the amended statement at a concrete store of one entry
and the appends 1,…,15. -/
theorem c7_witness :
    List.foldl history_append ([100] : List Nat)
        [1, 2, 3, 4, 5, 6, 7, 8, 9, 10, 11, 12, 13, 14, 15]
      = [1, 2, 3, 4, 5, 6, 7, 8, 9, 10, 11, 12, 13, 14, 15].reverse.take 10 ∧
    (List.foldl history_append ([100] : List Nat)
        [1, 2, 3, 4, 5, 6, 7, 8, 9, 10, 11, 12, 13, 14, 15]).length = 10 :=
  c7_amended [100] [1, 2, 3, 4, 5, 6, 7, 8, 9, 10, 11, 12, 13, 14, 15] rfl

/-- C3: whenever the brace-delimited span of the raw agent text parses as an
object carrying all four payload fields, extraction returns their values
unchanged under the same keys, and stamps the caller-supplied entity,
timestamp, and search mode (stored under the key `searchType`), overwriting
anything the agent supplied for those three. -/
theorem c3_extraction_stamps (full_response entity search_type nowIso today : String)
    (kvs : JObj) (rl sm fd rc : Json)
    (hp : parse_attempt full_response = some kvs)
    (hrl : kvs.lookup "riskLevel" = some rl)
    (hsm : kvs.lookup "summary" = some sm)
    (hfd : kvs.lookup "findings" = some fd)
    (hrc : kvs.lookup "recommendations" = some rc) :
    (extract_results full_response entity search_type nowIso today).lookup "riskLevel" = some rl ∧
    (extract_results full_response entity search_type nowIso today).lookup "summary" = some sm ∧
    (extract_results full_response entity search_type nowIso today).lookup "findings" = some fd ∧
    (extract_results full_response entity search_type nowIso today).lookup "recommendations" = some rc ∧
    (extract_results full_response entity search_type nowIso today).lookup "entity"
      = some (Json.str entity) ∧
    (extract_results full_response entity search_type nowIso today).lookup "timestamp"
      = some (Json.str nowIso) ∧
    (extract_results full_response entity search_type nowIso today).lookup "searchType"
      = some (Json.str search_type) := by
  have hpr := parse_results_of_attempt full_response today kvs hp
  have hmeta := extract_results_lookup_meta full_response entity search_type nowIso today
  refine ⟨?_, ?_, ?_, ?_, hmeta.1, hmeta.2.1, hmeta.2.2⟩
  · rw [extract_results_lookup_other full_response entity search_type nowIso today
      "riskLevel" (by decide) (by decide) (by decide), hpr, hrl]
  · rw [extract_results_lookup_other full_response entity search_type nowIso today
      "summary" (by decide) (by decide) (by decide), hpr, hsm]
  · rw [extract_results_lookup_other full_response entity search_type nowIso today
      "findings" (by decide) (by decide) (by decide), hpr, hfd]
  · rw [extract_results_lookup_other full_response entity search_type nowIso today
      "recommendations" (by decide) (by decide) (by decide), hpr, hrc]

set_option maxRecDepth 16384 in
/-- C3 (witness): the spec's end-to-end scenario — entity "Acme Corp",
basic mode, the Acme raw output with preamble and trailing notes. -/
theorem c3_witness :
    (extract_results acmeRaw "Acme Corp" "basic" "2025-01-01T00:00:00" "2025-01-01").lookup
        "riskLevel" = some (Json.str "LOW") ∧
    (extract_results acmeRaw "Acme Corp" "basic" "2025-01-01T00:00:00" "2025-01-01").lookup
        "summary" = some (Json.str "Minor complaint found") ∧
    (extract_results acmeRaw "Acme Corp" "basic" "2025-01-01T00:00:00" "2025-01-01").lookup
        "findings" = some (Json.arr JArr.nil) ∧
    (extract_results acmeRaw "Acme Corp" "basic" "2025-01-01T00:00:00" "2025-01-01").lookup
        "recommendations"
      = some (Json.arr (JArr.cons (Json.str "Monitor periodically") JArr.nil)) ∧
    (extract_results acmeRaw "Acme Corp" "basic" "2025-01-01T00:00:00" "2025-01-01").lookup
        "entity" = some (Json.str "Acme Corp") ∧
    (extract_results acmeRaw "Acme Corp" "basic" "2025-01-01T00:00:00" "2025-01-01").lookup
        "timestamp" = some (Json.str "2025-01-01T00:00:00") ∧
    (extract_results acmeRaw "Acme Corp" "basic" "2025-01-01T00:00:00" "2025-01-01").lookup
        "searchType" = some (Json.str "basic") :=
  c3_extraction_stamps acmeRaw "Acme Corp" "basic" "2025-01-01T00:00:00" "2025-01-01"
    acmePayload (Json.str "LOW") (Json.str "Minor complaint found") (Json.arr JArr.nil)
    (Json.arr (JArr.cons (Json.str "Monitor periodically") JArr.nil))
    rfl rfl rfl rfl rfl

/-- C4: whenever no brace-delimited span is found or it fails to parse,
extraction returns the fallback: riskLevel MEDIUM, summary the first 300
characters of the raw text (a fixed message when the raw text is empty),
exactly one finding (General / MEDIUM / "Analysis Results", description the
full raw text or the fixed placeholder when empty, dated today, source
"AI Analysis"), and the two fixed recommendations. -/
theorem c4_fallback (full_response entity search_type nowIso today : String)
    (hp : parse_attempt full_response = none) :
    (extract_results full_response entity search_type nowIso today).lookup "riskLevel"
      = some (Json.str "MEDIUM") ∧
    (extract_results full_response entity search_type nowIso today).lookup "summary"
      = some (Json.str (if full_response = "" then "Unable to parse response"
                        else String.mk (full_response.data.take 300))) ∧
    (extract_results full_response entity search_type nowIso today).lookup "findings"
      = some (Json.arr (JArr.ofList [Json.obj (JObj.ofList [
          ("category", Json.str "General"),
          ("severity", Json.str "MEDIUM"),
          ("title", Json.str "Analysis Results"),
          ("description", Json.str (if full_response = "" then "No detailed findings available"
                                    else full_response)),
          ("date", Json.str today),
          ("source", Json.str "AI Analysis")])])) ∧
    (extract_results full_response entity search_type nowIso today).lookup "recommendations"
      = some (Json.arr (JArr.ofList [
          Json.str "Review the detailed findings",
          Json.str "Conduct further due diligence"])) := by
  have hpr := parse_results_of_fail full_response today hp
  refine ⟨?_, ?_, ?_, ?_⟩ <;>
  · rw [extract_results_lookup_other full_response entity search_type nowIso today
      _ (by decide) (by decide) (by decide), hpr]
    simp [fallback_results, JObj.ofList, JObj.lookup]

/-- C4 (witness): the fallback on the raw text "no json here" (and, for the
empty-raw-text half of the claim, on `""`). -/
theorem c4_witness :
    ((extract_results "no json here" "E" "basic" "T" "D").lookup "riskLevel"
        = some (Json.str "MEDIUM") ∧
      (extract_results "no json here" "E" "basic" "T" "D").lookup "summary"
        = some (Json.str (if "no json here" = "" then "Unable to parse response"
                          else String.mk ("no json here".data.take 300))) ∧
      (extract_results "no json here" "E" "basic" "T" "D").lookup "findings"
        = some (Json.arr (JArr.ofList [Json.obj (JObj.ofList [
            ("category", Json.str "General"),
            ("severity", Json.str "MEDIUM"),
            ("title", Json.str "Analysis Results"),
            ("description", Json.str (if "no json here" = "" then "No detailed findings available"
                                      else "no json here")),
            ("date", Json.str "D"),
            ("source", Json.str "AI Analysis")])])) ∧
      (extract_results "no json here" "E" "basic" "T" "D").lookup "recommendations"
        = some (Json.arr (JArr.ofList [
            Json.str "Review the detailed findings",
            Json.str "Conduct further due diligence"]))) ∧
    ((extract_results "" "E" "basic" "T" "D").lookup "summary"
        = some (Json.str (if "" = "" then "Unable to parse response"
                          else String.mk ("".data.take 300))) ∧
      (extract_results "" "E" "basic" "T" "D").lookup "findings"
        = some (Json.arr (JArr.ofList [Json.obj (JObj.ofList [
            ("category", Json.str "General"),
            ("severity", Json.str "MEDIUM"),
            ("title", Json.str "Analysis Results"),
            ("description", Json.str (if "" = "" then "No detailed findings available"
                                      else "")),
            ("date", Json.str "D"),
            ("source", Json.str "AI Analysis")])]))) :=
  ⟨c4_fallback "no json here" "E" "basic" "T" "D" rfl,
   (c4_fallback "" "E" "basic" "T" "D" rfl).2.1,
   (c4_fallback "" "E" "basic" "T" "D" rfl).2.2.1⟩

/-- C5 (counterexample): a successfully parsed payload that carries only
`riskLevel` yields a result with *no* `findings`, `summary` or
`recommendations` field at all — nothing is defaulted to an empty sequence
or empty string, contradicting the claim. -/
theorem c5_counterexample :
    (extract_results "x \x7b\"riskLevel\": \"LOW\"\x7d y" "E" "basic" "T" "D").lookup
        "findings" = none ∧
    (extract_results "x \x7b\"riskLevel\": \"LOW\"\x7d y" "E" "basic" "T" "D").lookup
        "summary" = none ∧
    (extract_results "x \x7b\"riskLevel\": \"LOW\"\x7d y" "E" "basic" "T" "D").lookup
        "recommendations" = none := ⟨rfl, rfl, rfl⟩

/-- C5 (amended): on a successful structured parse nothing is defaulted:
the returned mapping carries exactly the parsed payload's value (present or
absent) for every key other than the three stamped metadata keys `entity`,
`timestamp`, `searchType`; the UI layer, not the extractor, substitutes
display defaults for missing fields. -/
theorem c5_amended (full_response entity search_type nowIso today k : String)
    (kvs : JObj) (hp : parse_attempt full_response = some kvs)
    (h1 : k ≠ "entity") (h2 : k ≠ "timestamp") (h3 : k ≠ "searchType") :
    (extract_results full_response entity search_type nowIso today).lookup k
      = kvs.lookup k := by
  rw [extract_results_lookup_other full_response entity search_type nowIso today k h1 h2 h3,
    parse_results_of_attempt full_response today kvs hp]

set_option maxRecDepth 8192 in
/-- C5 (witness): the riskLevel-only payload, looked up at `findings`. -/
theorem c5_witness :
    (extract_results "x \x7b\"riskLevel\": \"LOW\"\x7d y" "E" "basic" "T" "D").lookup
        "findings"
      = (JObj.cons "riskLevel" (Json.str "LOW") JObj.nil).lookup "findings" :=
  c5_amended "x \x7b\"riskLevel\": \"LOW\"\x7d y" "E" "basic" "T" "D" "findings"
    (JObj.cons "riskLevel" (Json.str "LOW") JObj.nil) rfl
    (by decide) (by decide) (by decide)

set_option maxRecDepth 8192 in
/-- C6 (counterexample): an agent payload with the out-of-enum risk level
"SEVERE" is stored verbatim in the returned result — no mapping to MEDIUM
happens anywhere between parsing and storage, contradicting the claimed
normalization invariant. -/
theorem c6_counterexample :
    (perform_screening (fun _ => Except.ok "\x7b\"riskLevel\": \"SEVERE\"\x7d")
        "E" "basic" "T" "D").lookup "riskLevel" = some (Json.str "SEVERE") ∧
    "SEVERE" ∉ (["HIGH", "MEDIUM", "LOW", "CLEAR", "ERROR"] : List String) :=
  ⟨rfl, by decide⟩

/-- C6 (amended): the code performs no risk-level normalization: on the
parse path the stored riskLevel is exactly the agent-supplied value,
whatever it is; only the code's own constructions are constrained — the
fallback dict always stores MEDIUM and the error dict always stores ERROR. -/
theorem c6_amended :
    (∀ (full_response entity search_type nowIso today : String) (kvs : JObj) (rl : Json),
      parse_attempt full_response = some kvs →
      kvs.lookup "riskLevel" = some rl →
      (extract_results full_response entity search_type nowIso today).lookup "riskLevel"
        = some rl) ∧
    (∀ full_response today : String,
      (fallback_results full_response today).lookup "riskLevel"
        = some (Json.str "MEDIUM")) ∧
    (∀ entity nowIso msg : String,
      (error_results entity nowIso msg).lookup "riskLevel" = some (Json.str "ERROR")) := by
  refine ⟨?_, ?_, ?_⟩
  · intro fr e st now today kvs rl hp hrl
    rw [extract_results_lookup_other fr e st now today "riskLevel"
      (by decide) (by decide) (by decide), parse_results_of_attempt fr today kvs hp, hrl]
  · intro fr today
    simp [fallback_results, JObj.ofList, JObj.lookup]
  · intro e now msg
    simp [error_results, JObj.ofList, JObj.lookup]

set_option maxRecDepth 8192 in
/-- C6 (witness): the three parts at concrete inputs — the SEVERE payload
is passed through, and the fallback/error dicts carry MEDIUM/ERROR. -/
theorem c6_witness :
    (extract_results "\x7b\"riskLevel\": \"SEVERE\"\x7d" "E" "basic" "T" "D").lookup
        "riskLevel" = some (Json.str "SEVERE") ∧
    (fallback_results "zz" "D").lookup "riskLevel" = some (Json.str "MEDIUM") ∧
    (error_results "E" "T" "m").lookup "riskLevel" = some (Json.str "ERROR") :=
  ⟨c6_amended.1 "\x7b\"riskLevel\": \"SEVERE\"\x7d" "E" "basic" "T" "D"
      (JObj.cons "riskLevel" (Json.str "SEVERE") JObj.nil) (Json.str "SEVERE") rfl rfl,
   c6_amended.2.1 "zz" "D",
   c6_amended.2.2 "E" "T" "m"⟩

/-- C8 (counterexample): on a transport failure the fixed recommendations
begin with "Check API key", not the claimed "Check credential". -/
theorem c8_counterexample :
    ((perform_screening (fun _ => Except.error "connection failed")
          "E" "basic" "T" "D").lookup "recommendations").bind Json.asStringList
      = some ["Check API key", "Verify network connection", "Try again"] ∧
    (["Check API key", "Verify network connection", "Try again"] : List String)
      ≠ ["Check credential", "Verify network connection", "Try again"] :=
  ⟨rfl, by decide⟩

/-- C8 (amended): whenever the transport raises, `perform_screening`
returns (rather than raises) the error dict: riskLevel ERROR, a summary
describing the failure, empty findings, and the fixed recommendations
"Check API key" / "Verify network connection" / "Try again"; and on every
path (success or failure) the returned mapping is a well-formed result
carrying the entity and timestamp. -/
theorem c8_amended :
    (∀ (transport : String → Except String String)
        (entity search_type nowIso today msg : String),
      transport (screening_prompt entity search_type) = Except.error msg →
      perform_screening transport entity search_type nowIso today
        = error_results entity nowIso msg) ∧
    (∀ entity nowIso msg : String,
      (error_results entity nowIso msg).lookup "riskLevel" = some (Json.str "ERROR") ∧
      (error_results entity nowIso msg).lookup "summary"
        = some (Json.str ("Error during screening: " ++ msg)) ∧
      (error_results entity nowIso msg).lookup "findings" = some (Json.arr JArr.nil) ∧
      (error_results entity nowIso msg).lookup "recommendations"
        = some (Json.arr (JArr.ofList [Json.str "Check API key",
            Json.str "Verify network connection", Json.str "Try again"]))) ∧
    (∀ (transport : String → Except String String)
        (entity search_type nowIso today : String),
      (perform_screening transport entity search_type nowIso today).lookup "entity"
        = some (Json.str entity) ∧
      (perform_screening transport entity search_type nowIso today).lookup "timestamp"
        = some (Json.str nowIso)) := by
  refine ⟨?_, ?_, ?_⟩
  · intro transport e st now today msg htr
    simp [perform_screening, perform_screening_log, htr]
  · intro e now msg
    refine ⟨?_, ?_, ?_, ?_⟩ <;> simp [error_results, JObj.ofList, JObj.lookup]
  · intro transport e st now today
    rcases htr : transport (screening_prompt e st) with msg | fr
    · constructor <;>
        simp [perform_screening, perform_screening_log, htr, error_results,
          JObj.ofList, JObj.lookup]
    · have hmeta := extract_results_lookup_meta fr e st now today
      constructor <;>
        simp [perform_screening, perform_screening_log, htr, hmeta.1, hmeta.2.1]

/-- C8 (witness): a failing stub transport produces exactly the error dict,
which carries the stated fields. -/
theorem c8_witness :
    perform_screening (fun _ => Except.error "boom") "E" "basic" "T" "D"
      = error_results "E" "T" "boom" ∧
    (error_results "E" "T" "boom").lookup "summary"
      = some (Json.str ("Error during screening: " ++ "boom")) ∧
    (perform_screening (fun _ => Except.error "boom") "E" "basic" "T" "D").lookup
        "entity" = some (Json.str "E") :=
  ⟨c8_amended.1 (fun _ => Except.error "boom") "E" "basic" "T" "D" "boom" rfl,
   (c8_amended.2.1 "E" "T" "boom").2.1,
   (c8_amended.2.2 (fun _ => Except.error "boom") "E" "basic" "T" "D").1⟩

/-- C10 (counterexample): on the successful-parse path the returned mapping
need not contain `riskLevel` (nor `summary`, `findings`,
`recommendations`): an empty payload object leaves only the three stamped
metadata keys, contradicting the claimed six always-present keys. -/
theorem c10_counterexample :
    (perform_screening (fun _ => Except.ok "\x7b\x7d") "E" "basic" "T" "D").lookup
        "riskLevel" = none ∧
    (perform_screening (fun _ => Except.ok "\x7b\x7d") "E" "basic" "T" "D").keys
      = ["entity", "timestamp", "searchType"] := ⟨rfl, rfl⟩

/-- C10 (amended): the fallback path's result has exactly the keys
riskLevel, summary, findings, recommendations, entity, timestamp,
searchType; the transport-error result has exactly entity, timestamp,
riskLevel, summary, findings, recommendations and no searchType; the
parse path guarantees only the three stamped metadata keys (other keys are
present iff the payload supplied them). -/
theorem c10_amended :
    (∀ (full_response entity search_type nowIso today : String),
      parse_attempt full_response = none →
      (extract_results full_response entity search_type nowIso today).keys
        = ["riskLevel", "summary", "findings", "recommendations",
           "entity", "timestamp", "searchType"]) ∧
    (∀ entity nowIso msg : String,
      (error_results entity nowIso msg).keys
        = ["entity", "timestamp", "riskLevel", "summary", "findings",
           "recommendations"] ∧
      (error_results entity nowIso msg).lookup "searchType" = none) ∧
    (∀ (full_response entity search_type nowIso today : String),
      (extract_results full_response entity search_type nowIso today).lookup "entity"
        = some (Json.str entity) ∧
      (extract_results full_response entity search_type nowIso today).lookup "timestamp"
        = some (Json.str nowIso) ∧
      (extract_results full_response entity search_type nowIso today).lookup "searchType"
        = some (Json.str search_type)) := by
  refine ⟨?_, ?_, ?_⟩
  · intro fr e st now today hp
    have hpr := parse_results_of_fail fr today hp
    simp [extract_results, hpr, add_metadata, fallback_results, JObj.ofList,
      JObj.set, JObj.keys]
  · intro e now msg
    constructor <;> simp [error_results, JObj.ofList, JObj.keys, JObj.lookup]
  · intro fr e st now today
    exact extract_results_lookup_meta fr e st now today

/-- C10 (witness): the three parts at concrete inputs. -/
theorem c10_witness :
    (extract_results "no braces" "E" "basic" "T" "D").keys
      = ["riskLevel", "summary", "findings", "recommendations",
         "entity", "timestamp", "searchType"] ∧
    (error_results "E" "T" "m").keys
      = ["entity", "timestamp", "riskLevel", "summary", "findings",
         "recommendations"] ∧
    (extract_results "no braces" "E" "basic" "T" "D").lookup "searchType"
      = some (Json.str "basic") :=
  ⟨c10_amended.1 "no braces" "E" "basic" "T" "D" rfl,
   (c10_amended.2.1 "E" "T" "m").1,
   (c10_amended.2.2 "no braces" "E" "basic" "T" "D").2.2⟩

/-! # Round-trip lemmas: whitespace and characters -/

theorem char_ne_of_toNat_ne {c d : Char} (h : c.toNat ≠ d.toNat) : c ≠ d :=
  fun he => h (he ▸ rfl)

theorem skipWs_cons_not_ws {c : Char} (l : List Char) (h : isWsChar c = false) :
    skipWs (c :: l) = c :: l := by
  simp [skipWs, h]

theorem skipWs_ws_run : ∀ (W : List Char), WsOnly W → ∀ l, skipWs (W ++ l) = skipWs l
  | [], _, l => rfl
  | c :: W2, hW, l => by
    have hc : isWsChar c = true := hW c (by simp)
    have hW2 : WsOnly W2 := fun d hd => hW d (by simp [hd])
    simp [skipWs, hc, skipWs_ws_run W2 hW2 l]

theorem wsOnly_nil : WsOnly [] := fun c hc => by simp at hc

theorem wsOnly_indent (d : Nat) : WsOnly (indentChars d) := by
  intro c hc
  have := List.eq_of_mem_replicate hc
  subst this
  rfl

theorem wsOnly_cons {c : Char} {W : List Char} (hc : isWsChar c = true)
    (hW : WsOnly W) : WsOnly (c :: W) := by
  intro d hd
  rcases hd with _ | hd
  · exact hc
  · exact hW d (by assumption)

theorem wsOnly_newline_indent (d : Nat) : WsOnly ('\n' :: indentChars d) :=
  wsOnly_cons rfl (wsOnly_indent d)

theorem isWsChar_false_of_toNat {c : Char} (hne : c.toNat ≠ 32) (h9 : c.toNat ≠ 9)
    (h10 : c.toNat ≠ 10) (h13 : c.toNat ≠ 13) : isWsChar c = false := by
  have e1 : (' ').toNat = 32 := rfl
  have e2 : ('\t').toNat = 9 := rfl
  have e3 : ('\n').toNat = 10 := rfl
  have e4 : ('\r').toNat = 13 := rfl
  have n1 : c ≠ ' ' := char_ne_of_toNat_ne (by rw [e1]; omega)
  have n2 : c ≠ '\t' := char_ne_of_toNat_ne (by rw [e2]; omega)
  have n3 : c ≠ '\n' := char_ne_of_toNat_ne (by rw [e3]; omega)
  have n4 : c ≠ '\r' := char_ne_of_toNat_ne (by rw [e4]; omega)
  simp [isWsChar, n1, n2, n3, n4]

theorem isWsChar_false_of_bounds {c : Char} (h1 : 48 ≤ c.toNat) (h2 : c.toNat ≤ 57) :
    isWsChar c = false :=
  isWsChar_false_of_toNat (by omega) (by omega) (by omega) (by omega)

/-! # Round-trip lemmas: decimal digits -/

theorem toNat_ofNat_digit : ∀ k < 10, (Char.ofNat (48 + k)).toNat = 48 + k := by decide

theorem natDigitsAux_bounds : ∀ (f n : Nat), n < f →
    ∀ c ∈ natDigitsAux f n, 48 ≤ c.toNat ∧ c.toNat ≤ 57 := by
  intro f
  induction f with
  | zero => omega
  | succ f2 ih =>
    intro n hn c hc
    rw [natDigitsAux] at hc
    by_cases h : n < 10
    · simp [h] at hc
      subst hc
      rw [toNat_ofNat_digit n h]
      omega
    · simp [h] at hc
      rcases hc with hc | hc
      · exact ih (n / 10) (by omega) c hc
      · subst hc
        have hm : n % 10 < 10 := by omega
        rw [toNat_ofNat_digit (n % 10) hm]
        omega

theorem natDigits_bounds : ∀ n : Nat, ∀ c ∈ natDigits n, 48 ≤ c.toNat ∧ c.toNat ≤ 57 :=
  fun n => natDigitsAux_bounds (n + 1) n (by omega)

theorem natDigitsAux_head : ∀ (f n : Nat), n < f → ∃ c cs, natDigitsAux f n = c :: cs ∧
    48 ≤ c.toNat ∧ c.toNat ≤ 57 ∧ (1 ≤ n → c.toNat ≠ 48) := by
  intro f
  induction f with
  | zero => omega
  | succ f2 ih =>
    intro n hn
    by_cases h : n < 10
    · refine ⟨Char.ofNat (48 + n), [], by rw [natDigitsAux]; simp [h], ?_⟩
      rw [toNat_ofNat_digit n h]
      omega
    · obtain ⟨c, cs, hrep, hb1, hb2, hz⟩ := ih (n / 10) (by omega)
      refine ⟨c, cs ++ [Char.ofNat (48 + n % 10)], ?_, hb1, hb2, ?_⟩
      · rw [natDigitsAux]
        simp [h, hrep]
      · intro _
        exact hz (by omega)

theorem natDigits_head : ∀ n : Nat, ∃ c cs, natDigits n = c :: cs ∧
    48 ≤ c.toNat ∧ c.toNat ≤ 57 ∧ (1 ≤ n → c.toNat ≠ 48) :=
  fun n => natDigitsAux_head (n + 1) n (by omega)

theorem natDigitsAux_foldl : ∀ (f n a : Nat), n < f →
    (natDigitsAux f n).foldl (fun acc c => acc * 10 + (c.toNat - 48)) a
      = a * 10 ^ (natDigitsAux f n).length + n := by
  intro f
  induction f with
  | zero => omega
  | succ f2 ih =>
    intro n a hn
    rw [natDigitsAux]
    by_cases h : n < 10
    · simp [h, toNat_ofNat_digit n h]
      try omega
    · have hm : n % 10 < 10 := by omega
      simp only [h, if_false, List.foldl_append, List.length_append, List.foldl_cons,
        List.foldl_nil, List.length_cons, List.length_nil]
      rw [ih (n / 10) a (by omega), toNat_ofNat_digit (n % 10) hm]
      rw [pow_succ]
      ring_nf
      omega

theorem natDigits_foldl : ∀ n a : Nat,
    (natDigits n).foldl (fun acc c => acc * 10 + (c.toNat - 48)) a
      = a * 10 ^ (natDigits n).length + n :=
  fun n a => natDigitsAux_foldl (n + 1) n a (by omega)

theorem takeWhile_digits_append (p : Char → Bool) :
    ∀ (ds rest : List Char), (∀ c ∈ ds, p c = true) →
      (∀ c l, rest = c :: l → p c = false) →
      (ds ++ rest).takeWhile p = ds ∧ (ds ++ rest).dropWhile p = rest := by
  intro ds
  induction ds with
  | nil =>
    intro rest _ hrest
    cases rest with
    | nil => simp
    | cons c l =>
      have := hrest c l rfl
      simp [List.takeWhile, List.dropWhile, this]
  | cons d ds2 ih =>
    intro rest hds hrest
    have hd : p d = true := hds d (by simp)
    have hds2 : ∀ c ∈ ds2, p c = true := fun c hc => hds c (by simp [hc])
    obtain ⟨h1, h2⟩ := ih rest hds2 hrest
    constructor
    · simp [List.takeWhile, hd, h1]
    · simp [List.dropWhile, hd, h2]

theorem parseNatTok_digits (n : Nat) (rest : List Char)
    (hrest : headNotDigitB rest = true) :
    parseNatTok (natDigits n ++ rest) = some (n, rest) := by
  obtain ⟨c, cs, hrep, hb1, hb2, hz⟩ := natDigits_head n
  have hall : ∀ ch ∈ natDigits n, isDigitB ch = true := by
    intro ch hch
    have := natDigits_bounds n ch hch
    simp [isDigitB]
    omega
  have hrest' : ∀ ch l, rest = ch :: l → isDigitB ch = false := by
    intro ch l hr
    subst hr
    simpa [headNotDigitB] using hrest
  have hspan := takeWhile_digits_append (fun ch => isDigitB ch) (natDigits n) rest hall hrest'
  unfold parseNatTok
  rw [List.span_eq_take_drop, hspan.1, hspan.2, hrep]
  have hfold := natDigits_foldl n 0
  rw [hrep] at hfold
  simp only [zero_mul, zero_add] at hfold
  rcases Nat.eq_zero_or_pos n with h0 | h1
  · subst h0
    have : natDigits 0 = [Char.ofNat 48] := by decide
    rw [this] at hrep
    cases hrep
    simp [parseNatTok]
  · have hcz : ¬ (c = '0' ∧ cs ≠ []) := by
      rintro ⟨hc0, -⟩
      exact hz h1 (by rw [hc0]; rfl)
    simp [hcz, hfold]

/-! # Round-trip lemmas: hex escapes and string bodies -/

theorem hexVal_hexDigitChar : ∀ k < 16, hexVal (hexDigitChar k) = some k := by decide

theorem hex4_toHex4 (n : Nat) (h : n < 65536) :
    toHex4 n = [hexDigitChar (n / 4096 % 16), hexDigitChar (n / 256 % 16),
      hexDigitChar (n / 16 % 16), hexDigitChar (n % 16)] ∧
    hex4 (hexDigitChar (n / 4096 % 16)) (hexDigitChar (n / 256 % 16))
      (hexDigitChar (n / 16 % 16)) (hexDigitChar (n % 16)) = some n := by
  refine ⟨rfl, ?_⟩
  unfold hex4
  rw [hexVal_hexDigitChar (n / 4096 % 16) (by omega),
    hexVal_hexDigitChar (n / 256 % 16) (by omega),
    hexVal_hexDigitChar (n / 16 % 16) (by omega),
    hexVal_hexDigitChar (n % 16) (by omega)]
  have : n / 4096 % 16 * 4096 + n / 256 % 16 * 256 + n / 16 % 16 * 16 + n % 16 = n := by
    omega
  simp [this]

theorem char_valid_ranges (c : Char) :
    c.toNat < 55296 ∨ (57343 < c.toNat ∧ c.toNat < 1114112) := by
  have h : Nat.isValidChar c.toNat := c.valid
  rcases h with h | ⟨h1, h2⟩
  · exact Or.inl h
  · exact Or.inr ⟨h1, h2⟩

theorem strbody_step_simple (c e : Char) (l2 rest : List Char) (f2 : Nat)
    (hesc : escapeChar c = ['\\', e]) (hun : unescapeSimple e = some c) (he : ¬ e = 'u')
    (ih : parseStrBody f2 (escapeChars l2 ++ '"' :: rest) = some (l2, rest)) :
    parseStrBody (f2 + 1) (escapeChars (c :: l2) ++ '"' :: rest)
      = some (c :: l2, rest) := by
  rw [escapeChars, hesc]
  simp [parseStrBody, parseEscape, he, hun, ih]

theorem strbody_step_plain (c : Char) (l2 rest : List Char) (f2 : Nat)
    (h1 : ¬ c = '"') (h2 : ¬ c = '\\') (hctl : ¬ c.toNat < 32)
    (hesc : escapeChar c = [c])
    (ih : parseStrBody f2 (escapeChars l2 ++ '"' :: rest) = some (l2, rest)) :
    parseStrBody (f2 + 1) (escapeChars (c :: l2) ++ '"' :: rest)
      = some (c :: l2, rest) := by
  rw [escapeChars, hesc]
  simp [parseStrBody, h1, h2, hctl, ih]

theorem strbody_step_u (c : Char) (l2 rest : List Char) (f2 : Nat)
    (hlt : c.toNat < 65536)
    (hesc : escapeChar c = '\\' :: 'u' :: toHex4 c.toNat)
    (ih : parseStrBody f2 (escapeChars l2 ++ '"' :: rest) = some (l2, rest)) :
    parseStrBody (f2 + 1) (escapeChars (c :: l2) ++ '"' :: rest)
      = some (c :: l2, rest) := by
  obtain ⟨htox, hhex⟩ := hex4_toHex4 c.toNat hlt
  have hval := char_valid_ranges c
  have hs1 : ¬ (55296 ≤ c.toNat ∧ c.toNat ≤ 56319) := by omega
  have hs2 : ¬ (56320 ≤ c.toNat ∧ c.toNat ≤ 57343) := by omega
  rw [escapeChars, hesc, htox]
  simp [parseStrBody, parseEscape, hhex, hs1, hs2, ih, Char.ofNat_toNat]

theorem strbody_step_pair (c : Char) (l2 rest : List Char) (f2 : Nat)
    (hge : ¬ c.toNat < 65536)
    (hesc : escapeChar c
      = ('\\' :: 'u' :: toHex4 (55296 + (c.toNat - 65536) / 1024)) ++
        ('\\' :: 'u' :: toHex4 (56320 + (c.toNat - 65536) % 1024)))
    (ih : parseStrBody f2 (escapeChars l2 ++ '"' :: rest) = some (l2, rest)) :
    parseStrBody (f2 + 1) (escapeChars (c :: l2) ++ '"' :: rest)
      = some (c :: l2, rest) := by
  have hval := char_valid_ranges c
  have hhi_lt : 55296 + (c.toNat - 65536) / 1024 < 65536 := by omega
  have hlo_lt : 56320 + (c.toNat - 65536) % 1024 < 65536 := by omega
  obtain ⟨htox1, hhex1⟩ := hex4_toHex4 (55296 + (c.toNat - 65536) / 1024) hhi_lt
  obtain ⟨htox2, hhex2⟩ := hex4_toHex4 (56320 + (c.toNat - 65536) % 1024) hlo_lt
  have hs1 : 55296 ≤ 55296 + (c.toNat - 65536) / 1024 ∧
      55296 + (c.toNat - 65536) / 1024 ≤ 56319 := by omega
  have hs2 : 56320 ≤ 56320 + (c.toNat - 65536) % 1024 ∧
      56320 + (c.toNat - 65536) % 1024 ≤ 57343 := by omega
  rw [escapeChars, hesc, htox1, htox2]
  simp only [List.cons_append, List.append_assoc, List.nil_append]
  rw [parseStrBody]
  simp only [reduceIte, reduceCtorEq]
  rw [parseEscape]
  simp only [reduceIte, hhex1, hhex2, hs1, hs2, and_true, true_and, if_true, if_pos]
  rw [if_neg (by decide : ¬ ('\\' : Char) = '"')]
  rw [ih]
  have harith2 : 65536 + (55296 + (c.toNat - 65536) / 1024 - 55296) * 1024 +
      (56320 + (c.toNat - 65536) % 1024 - 56320) = c.toNat := by omega
  rw [harith2, Char.ofNat_toNat]

theorem escapeChar_len_pos (c : Char) : 1 ≤ (escapeChar c).length := by
  unfold escapeChar
  repeat' split
  all_goals simp [toHex4]

theorem parseStrBody_escapeChars :
    ∀ (l : List Char) (f : Nat) (rest : List Char),
      (escapeChars l ++ '"' :: rest).length < f →
      parseStrBody f (escapeChars l ++ '"' :: rest) = some (l, rest) := by
  intro l
  induction l with
  | nil =>
    intro f rest hf
    cases f with
    | zero => simp at hf
    | succ f2 => simp [escapeChars, parseStrBody]
  | cons c l2 ih =>
    intro f rest hf
    cases f with
    | zero => simp at hf
    | succ f2 =>
      have hrec : (escapeChars l2 ++ '"' :: rest).length < f2 := by
        have hpos := escapeChar_len_pos c
        rw [escapeChars] at hf
        simp at hf ⊢
        omega
      have ihr := ih f2 rest hrec
      by_cases h1 : c = '"'
      · subst h1
        exact strbody_step_simple _ '"' l2 rest f2 (by simp [escapeChar]) rfl (by simp) ihr
      · by_cases h2 : c = '\\'
        · subst h2
          exact strbody_step_simple _ '\\' l2 rest f2 (by simp [escapeChar]) rfl (by simp) ihr
        · by_cases hctl : c.toNat < 32
          · by_cases h3 : c = Char.ofNat 8
            · subst h3
              exact strbody_step_simple _ 'b' l2 rest f2 (by simp [escapeChar]) rfl (by simp) ihr
            · by_cases h4 : c = Char.ofNat 12
              · subst h4
                exact strbody_step_simple _ 'f' l2 rest f2 (by simp [escapeChar]) rfl (by simp) ihr
              · by_cases h5 : c = '\n'
                · subst h5
                  exact strbody_step_simple _ 'n' l2 rest f2 (by simp [escapeChar]) rfl (by simp) ihr
                · by_cases h6 : c = '\r'
                  · subst h6
                    exact strbody_step_simple _ 'r' l2 rest f2 (by simp [escapeChar]) rfl (by simp) ihr
                  · by_cases h7 : c = '\t'
                    · subst h7
                      exact strbody_step_simple _ 't' l2 rest f2 (by simp [escapeChar]) rfl (by simp) ihr
                    · exact strbody_step_u c l2 rest f2 (by omega)
                        (by simp [escapeChar, h1, h2, h3, h4, h5, h6, h7, hctl]) ihr
          · have h3 : c ≠ Char.ofNat 8 := char_ne_of_toNat_ne (by simpa using by omega)
            have h4 : c ≠ Char.ofNat 12 := char_ne_of_toNat_ne (by simpa using by omega)
            have h5 : c ≠ '\n' := char_ne_of_toNat_ne (by simpa using by omega)
            have h6 : c ≠ '\r' := char_ne_of_toNat_ne (by simpa using by omega)
            have h7 : c ≠ '\t' := char_ne_of_toNat_ne (by simpa using by omega)
            by_cases h9 : c.toNat < 127
            · exact strbody_step_plain c l2 rest f2 h1 h2 hctl
                (by simp [escapeChar, h1, h2, h3, h4, h5, h6, h7, hctl, h9]) ihr
            · by_cases h10 : c.toNat < 65536
              · exact strbody_step_u c l2 rest f2 h10
                  (by simp [escapeChar, h1, h2, h3, h4, h5, h6, h7, hctl, h9, h10]) ihr
              · exact strbody_step_pair c l2 rest f2 h10
                  (by simp [escapeChar, h1, h2, h3, h4, h5, h6, h7, hctl, h9, h10]) ihr

/-! # Round-trip lemmas: dict rebuilding and dump shapes -/

theorem string_mk_data (s : String) : String.mk s.data = s := rfl

theorem ws_toNat {c : Char} (h : isWsChar c = true) :
    c.toNat = 32 ∨ c.toNat = 9 ∨ c.toNat = 10 ∨ c.toNat = 13 := by
  simp [isWsChar] at h
  rcases h with ((h | h) | h) | h <;> subst h <;> decide

theorem headNotDigitB_ws_cons (W : List Char) (hW : WsOnly W) (c : Char)
    (hc : isDigitB c = false) (l : List Char) :
    headNotDigitB (W ++ c :: l) = true := by
  cases W with
  | nil => simpa [headNotDigitB] using hc
  | cons w W2 =>
    have hw := ws_toNat (hW w (by simp))
    have : isDigitB w = false := by
      simp [isDigitB]
      omega
    simpa [headNotDigitB] using this

theorem keyMemB_appendO (k : String) : ∀ a b : JObj,
    keyMemB k (appendO a b) = (keyMemB k a || keyMemB k b)
  | JObj.nil, b => by simp [appendO, keyMemB]
  | JObj.cons k0 v0 t, b => by
    simp [appendO, keyMemB, keyMemB_appendO k t b, Bool.or_assoc]

theorem appendO_nil_right : ∀ a : JObj, appendO a JObj.nil = a
  | JObj.nil => rfl
  | JObj.cons k v t => by simp [appendO, appendO_nil_right t]

theorem set_fresh : ∀ (o : JObj) (k : String) (v : Json), keyMemB k o = false →
    JObj.set o k v = appendO o (JObj.cons k v JObj.nil)
  | JObj.nil, k, v, _ => rfl
  | JObj.cons k0 v0 t, k, v, h => by
    simp [keyMemB] at h
    obtain ⟨hne, ht⟩ := h
    simp [JObj.set, appendO, Ne.symm hne, set_fresh t k v ht]

theorem appendO_cons_assoc : ∀ (a : JObj) (k : String) (v : Json) (t : JObj),
    appendO (appendO a (JObj.cons k v JObj.nil)) t = appendO a (JObj.cons k v t)
  | JObj.nil, k, v, t => rfl
  | JObj.cons k0 v0 a2, k, v, t => by
    simp [appendO, appendO_cons_assoc a2 k v t]

theorem foldl_set_toPairs : ∀ (o acc : JObj), wfO o = true →
    (∀ k2, keyMemB k2 acc = true → keyMemB k2 o = false) →
    List.foldl (fun o2 kv => JObj.set o2 kv.1 kv.2) acc (JObj.toPairs o) = appendO acc o
  | JObj.nil, acc, _, _ => by simp [JObj.toPairs, appendO_nil_right]
  | JObj.cons k v t, acc, hwf, hfresh => by
    simp only [wfO, Bool.and_eq_true, Bool.not_eq_true'] at hwf
    obtain ⟨⟨hkt, _⟩, hwt⟩ := hwf
    have hkacc : keyMemB k acc = false := by
      by_contra hk
      have := hfresh k (by simpa using hk)
      simp [keyMemB] at this
    have hfresh2 : ∀ k2, keyMemB k2 (appendO acc (JObj.cons k v JObj.nil)) = true →
        keyMemB k2 t = false := by
      intro k2 hk2
      rw [keyMemB_appendO] at hk2
      simp [keyMemB] at hk2
      rcases hk2 with hk2 | hk2
      · have hkk := hfresh k2 hk2
        simp [keyMemB] at hkk
        exact hkk.2
      · subst hk2
        exact hkt
    calc List.foldl (fun o2 kv => JObj.set o2 kv.1 kv.2) acc
          (JObj.toPairs (JObj.cons k v t))
        = List.foldl (fun o2 kv => JObj.set o2 kv.1 kv.2)
            (JObj.set acc k v) (JObj.toPairs t) := by simp [JObj.toPairs]
      _ = List.foldl (fun o2 kv => JObj.set o2 kv.1 kv.2)
            (appendO acc (JObj.cons k v JObj.nil)) (JObj.toPairs t) := by
          rw [set_fresh acc k v hkacc]
      _ = appendO (appendO acc (JObj.cons k v JObj.nil)) t :=
          foldl_set_toPairs t _ hwt hfresh2
      _ = appendO acc (JObj.cons k v t) := appendO_cons_assoc acc k v t

theorem ofPairs_toPairs (o : JObj) (hwf : wfO o = true) :
    JObj.ofPairs (JObj.toPairs o) = o := by
  have h := foldl_set_toPairs o JObj.nil hwf (by intro k2 hk; simp [keyMemB] at hk)
  simpa [JObj.ofPairs, appendO] using h

theorem dumpItems_eq (d : Nat) (x : Json) (t : JArr) :
    dumpItems d (JArr.cons x t) = indentChars d ++ dumpVal d x ++ dumpItemsTail d t := by
  cases t <;> simp [dumpItems, dumpItemsTail]

theorem dumpMembers_eq (d : Nat) (k : String) (v : Json) (t : JObj) :
    dumpMembers d (JObj.cons k v t)
      = indentChars d ++ (dumpStr k ++ ':' :: ' ' :: dumpVal d v) ++ dumpMembersTail d t := by
  cases t <;> simp [dumpMembers, dumpMembersTail]

theorem dumpVal_head (d : Nat) (v : Json) : ∃ c cs, dumpVal d v = c :: cs ∧
    isWsChar c = false ∧ c ≠ ']' ∧ c ≠ braceClose := by
  cases v with
  | null => exact ⟨'n', ['u', 'l', 'l'], rfl, rfl, by decide, by decide⟩
  | bool b =>
    cases b
    · exact ⟨'f', ['a', 'l', 's', 'e'], rfl, rfl, by decide, by decide⟩
    · exact ⟨'t', ['r', 'u', 'e'], rfl, rfl, by decide, by decide⟩
  | num n =>
    by_cases hn : n < 0
    · refine ⟨'-', natDigits n.natAbs, ?_, rfl, by decide, by decide⟩
      simp [dumpVal, intChars, hn]
    · obtain ⟨c, cs, hrep, hb1, hb2, _⟩ := natDigits_head n.toNat
      refine ⟨c, cs, ?_, isWsChar_false_of_bounds hb1 hb2, ?_, ?_⟩
      · simp [dumpVal, intChars, hn, hrep]
      · exact char_ne_of_toNat_ne (by simp; omega)
      · exact char_ne_of_toNat_ne (by simp [braceClose]; omega)
  | str s => exact ⟨'"', escapeChars s.data ++ ['"'], rfl, rfl, by decide, by decide⟩
  | arr a =>
    cases a with
    | nil => exact ⟨'[', [']'], rfl, rfl, by decide, by decide⟩
    | cons x t =>
      exact ⟨'[', '\n' ::
          (dumpItems (d + 1) (JArr.cons x t) ++ '\n' :: (indentChars d ++ [']'])),
        rfl, rfl, by decide, by decide⟩
  | obj o =>
    cases o with
    | nil => exact ⟨braceOpen, [braceClose], rfl, by decide, by decide, by decide⟩
    | cons k v t =>
      exact ⟨braceOpen,
        '\n' ::
          (dumpMembers (d + 1) (JObj.cons k v t) ++ '\n' :: (indentChars d ++ [braceClose])),
        rfl, by decide, by decide, by decide⟩

/-! # Round-trip lemmas: parser steps for each value shape -/

theorem skipWs_to_dump (W : List Char) (hW : WsOnly W) (d : Nat) (v : Json)
    (rest : List Char) :
    skipWs (W ++ dumpVal d v ++ rest) = dumpVal d v ++ rest := by
  rw [List.append_assoc, skipWs_ws_run W hW]
  obtain ⟨c, cs, hrep, hws, -, -⟩ := dumpVal_head d v
  rw [hrep]
  exact skipWs_cons_not_ws _ hws

theorem parseVal_step_null (f d : Nat) (W rest : List Char) (hW : WsOnly W) :
    parseVal (f + 1) (W ++ dumpVal d Json.null ++ rest) = some (Json.null, rest) := by
  have hsk := skipWs_to_dump W hW d Json.null rest
  rw [parseVal, hsk]
  simp only [dumpVal, List.cons_append]
  simp [(by decide : ¬ ('n' : Char) = braceOpen), (by decide : ¬ ('n' : Char) = '['),
    (by decide : ¬ ('n' : Char) = '"'), (by decide : ¬ ('n' : Char) = '-'),
    (by decide : isDigitB 'n' = false)]

theorem parseVal_step_bool (f d : Nat) (W rest : List Char) (b : Bool) (hW : WsOnly W) :
    parseVal (f + 1) (W ++ dumpVal d (Json.bool b) ++ rest) = some (Json.bool b, rest) := by
  have hsk := skipWs_to_dump W hW d (Json.bool b) rest
  rw [parseVal, hsk]
  cases b
  · simp only [dumpVal, Bool.false_eq_true, if_false, List.cons_append]
    simp [(by decide : ¬ ('f' : Char) = braceOpen), (by decide : ¬ ('f' : Char) = '['),
      (by decide : ¬ ('f' : Char) = '"'), (by decide : ¬ ('f' : Char) = '-'),
      (by decide : isDigitB 'f' = false)]
  · simp only [dumpVal, if_true, List.cons_append]
    simp [(by decide : ¬ ('t' : Char) = braceOpen), (by decide : ¬ ('t' : Char) = '['),
      (by decide : ¬ ('t' : Char) = '"'), (by decide : ¬ ('t' : Char) = '-'),
      (by decide : isDigitB 't' = false)]

theorem parseVal_step_num (f d : Nat) (W rest : List Char) (n : Int) (hW : WsOnly W)
    (hrest : headNotDigitB rest = true) :
    parseVal (f + 1) (W ++ dumpVal d (Json.num n) ++ rest) = some (Json.num n, rest) := by
  have hsk := skipWs_to_dump W hW d (Json.num n) rest
  rw [parseVal, hsk]
  by_cases hn : n < 0
  · simp only [dumpVal, intChars, hn, if_true, List.cons_append]
    have htok := parseNatTok_digits n.natAbs rest hrest
    simp [(by decide : ¬ ('-' : Char) = braceOpen), (by decide : ¬ ('-' : Char) = '['),
      (by decide : ¬ ('-' : Char) = '"'), (by decide : isDigitB '-' = false), htok]
    rw [Int.abs_eq_natAbs]
    omega
  · obtain ⟨c, cs, hrep, hb1, hb2, -⟩ := natDigits_head n.toNat
    have h1 : ¬ c = braceOpen := char_ne_of_toNat_ne (by
      have : braceOpen.toNat = 123 := rfl
      omega)
    have h2 : ¬ c = '[' := char_ne_of_toNat_ne (by
      have : ('[').toNat = 91 := rfl
      omega)
    have h3 : ¬ c = '"' := char_ne_of_toNat_ne (by
      have : ('"').toNat = 34 := rfl
      omega)
    have h4 : ¬ c = '-' := char_ne_of_toNat_ne (by
      have : ('-').toNat = 45 := rfl
      omega)
    have h5 : isDigitB c = true := by simp [isDigitB]; omega
    have hback : c :: (cs ++ rest) = natDigits n.toNat ++ rest := by rw [hrep]; simp
    simp only [dumpVal, intChars, hn, if_false, hrep, List.cons_append]
    simp only [h1, h2, h3, h4, h5, if_neg, if_true, if_pos, ite_false, ite_true]
    rw [hback, parseNatTok_digits n.toNat rest hrest]
    have : ((n.toNat : Nat) : Int) = n := by omega
    simp [this]

theorem parseVal_step_str (f d : Nat) (W rest : List Char) (s : String) (hW : WsOnly W) :
    parseVal (f + 1) (W ++ dumpVal d (Json.str s) ++ rest) = some (Json.str s, rest) := by
  have hsk := skipWs_to_dump W hW d (Json.str s) rest
  rw [parseVal, hsk]
  simp only [dumpVal, dumpStr, List.cons_append, List.append_assoc, List.singleton_append,
    List.nil_append]
  simp only [eq_false (by decide : ¬ ('"' : Char) = braceOpen),
    eq_false (by decide : ¬ ('"' : Char) = '['), eq_self_iff_true, if_false, if_true]
  rw [parseStrBody_escapeChars s.data _ rest (Nat.lt_succ_self _)]

theorem parseVal_step_arrnil (f d : Nat) (W rest : List Char) (hW : WsOnly W) :
    parseVal (f + 1) (W ++ dumpVal d (Json.arr JArr.nil) ++ rest)
      = some (Json.arr JArr.nil, rest) := by
  have hsk := skipWs_to_dump W hW d (Json.arr JArr.nil) rest
  rw [parseVal, hsk]
  simp only [dumpVal, List.cons_append, List.singleton_append]
  simp only [eq_false (by decide : ¬ ('[' : Char) = braceOpen), eq_self_iff_true,
    if_false, if_true]
  rw [skipWs_cons_not_ws _ (by decide : isWsChar ']' = false)]
  simp

theorem parseVal_step_objnil (f d : Nat) (W rest : List Char) (hW : WsOnly W) :
    parseVal (f + 1) (W ++ dumpVal d (Json.obj JObj.nil) ++ rest)
      = some (Json.obj JObj.nil, rest) := by
  have hsk := skipWs_to_dump W hW d (Json.obj JObj.nil) rest
  rw [parseVal, hsk]
  simp only [dumpVal, List.cons_append, List.singleton_append]
  simp only [eq_self_iff_true, if_true]
  rw [skipWs_cons_not_ws _ (by decide : isWsChar braceClose = false)]
  simp

theorem skipWs_nl_items (d : Nat) (x : Json) (t : JArr) (R : List Char) :
    skipWs ('\n' :: (dumpItems (d + 1) (JArr.cons x t) ++ R))
      = dumpVal (d + 1) x ++ (dumpItemsTail (d + 1) t ++ R) := by
  rw [dumpItems_eq]
  have hre : ('\n' :: ((indentChars (d + 1) ++ dumpVal (d + 1) x ++ dumpItemsTail (d + 1) t) ++ R))
      = ('\n' :: indentChars (d + 1)) ++ (dumpVal (d + 1) x ++ (dumpItemsTail (d + 1) t ++ R)) := by
    simp
  rw [hre, skipWs_ws_run _ (wsOnly_newline_indent (d + 1))]
  obtain ⟨c, cs, hrep, hws, -, -⟩ := dumpVal_head (d + 1) x
  rw [hrep]
  exact skipWs_cons_not_ws _ hws

theorem skipWs_nl_members (d : Nat) (k : String) (v : Json) (t : JObj) (R : List Char) :
    skipWs ('\n' :: (dumpMembers (d + 1) (JObj.cons k v t) ++ R))
      = '"' :: (escapeChars k.data ++ '"' ::
          (':' :: ' ' :: (dumpVal (d + 1) v ++ (dumpMembersTail (d + 1) t ++ R)))) := by
  rw [dumpMembers_eq]
  have hre : ('\n' :: ((indentChars (d + 1) ++ (dumpStr k ++ ':' :: ' ' :: dumpVal (d + 1) v) ++
        dumpMembersTail (d + 1) t) ++ R))
      = ('\n' :: indentChars (d + 1)) ++ ('"' :: (escapeChars k.data ++ '"' ::
          (':' :: ' ' :: (dumpVal (d + 1) v ++ (dumpMembersTail (d + 1) t ++ R))))) := by
    simp [dumpStr]
  rw [hre, skipWs_ws_run _ (wsOnly_newline_indent (d + 1))]
  exact skipWs_cons_not_ws _ (by decide)

theorem parseVal_step_arr (f d : Nat) (W rest : List Char) (x : Json) (t : JArr)
    (hW : WsOnly W)
    (hitems : parseItems f (dumpVal (d + 1) x ++
        (dumpItemsTail (d + 1) t ++ ('\n' :: (indentChars d ++ (']' :: rest)))))
      = some (JArr.cons x t, rest)) :
    parseVal (f + 1) (W ++ dumpVal d (Json.arr (JArr.cons x t)) ++ rest)
      = some (Json.arr (JArr.cons x t), rest) := by
  have hsk := skipWs_to_dump W hW d (Json.arr (JArr.cons x t)) rest
  rw [parseVal, hsk]
  simp only [dumpVal, List.cons_append, List.append_assoc, List.singleton_append,
    List.nil_append]
  simp only [eq_false (by decide : ¬ ('[' : Char) = braceOpen), eq_self_iff_true,
    if_false, if_true]
  rw [skipWs_nl_items]
  obtain ⟨c, cs, hrep, -, hne1, -⟩ := dumpVal_head (d + 1) x
  have hback : c :: (cs ++ (dumpItemsTail (d + 1) t ++ ('\n' :: (indentChars d ++ (']' :: rest)))))
      = dumpVal (d + 1) x ++
        (dumpItemsTail (d + 1) t ++ ('\n' :: (indentChars d ++ (']' :: rest)))) := by
    rw [hrep]
    simp
  rw [hrep]
  simp only [List.cons_append]
  rw [if_neg hne1, hback, hitems]

theorem parseVal_step_obj (f d : Nat) (W rest : List Char) (k : String) (v : Json) (t : JObj)
    (hW : WsOnly W) (hwf : wfO (JObj.cons k v t) = true)
    (hmembers : parseMembers f ('"' :: (escapeChars k.data ++ '"' ::
        (':' :: ' ' :: (dumpVal (d + 1) v ++
          (dumpMembersTail (d + 1) t ++ ('\n' :: (indentChars d ++ (braceClose :: rest))))))))
      = some (JObj.toPairs (JObj.cons k v t), rest)) :
    parseVal (f + 1) (W ++ dumpVal d (Json.obj (JObj.cons k v t)) ++ rest)
      = some (Json.obj (JObj.cons k v t), rest) := by
  have hsk := skipWs_to_dump W hW d (Json.obj (JObj.cons k v t)) rest
  rw [parseVal, hsk]
  simp only [dumpVal, List.cons_append, List.append_assoc, List.singleton_append,
    List.nil_append]
  simp only [eq_self_iff_true, if_true]
  rw [skipWs_nl_members]
  simp only [eq_false (by decide : ¬ ('"' : Char) = braceClose), if_false, hmembers,
    ofPairs_toPairs (JObj.cons k v t) hwf]

theorem parseItems_step_last (f d : Nat) (W1 W2 rest : List Char) (x : Json)
    (hW2 : WsOnly W2)
    (hval : parseVal f (W1 ++ dumpVal d x ++ (W2 ++ ']' :: rest))
      = some (x, W2 ++ ']' :: rest)) :
    parseItems (f + 1) (W1 ++ dumpVal d x ++ (W2 ++ ']' :: rest))
      = some (JArr.cons x JArr.nil, rest) := by
  rw [parseItems, hval]
  have hws1 : ∀ l : List Char, skipWs (']' :: l) = ']' :: l :=
    fun l => skipWs_cons_not_ws l (by decide)
  simp only [skipWs_ws_run W2 hW2, hws1,
    eq_false (by decide : ¬ (']' : Char) = ','), eq_self_iff_true, if_false, if_true]

theorem parseItems_step_more (f d : Nat) (W1 W2 rest : List Char) (x y : Json) (t2 : JArr)
    (hval : parseVal f
        (W1 ++ dumpVal d x ++
          (',' :: '\n' :: (dumpItems d (JArr.cons y t2) ++ (W2 ++ ']' :: rest))))
      = some (x, ',' :: '\n' :: (dumpItems d (JArr.cons y t2) ++ (W2 ++ ']' :: rest))))
    (hrec : parseItems f ('\n' :: (dumpItems d (JArr.cons y t2) ++ (W2 ++ ']' :: rest)))
      = some (JArr.cons y t2, rest)) :
    parseItems (f + 1)
        (W1 ++ dumpVal d x ++
          (',' :: '\n' :: (dumpItems d (JArr.cons y t2) ++ (W2 ++ ']' :: rest))))
      = some (JArr.cons x (JArr.cons y t2), rest) := by
  rw [parseItems, hval]
  have hws1 : ∀ l : List Char, skipWs (',' :: l) = ',' :: l :=
    fun l => skipWs_cons_not_ws l (by decide)
  simp only [hws1, eq_self_iff_true, if_true, hrec]

theorem parseMembers_step_last (f d : Nat) (W1 W2 rest : List Char) (k : String) (v : Json)
    (hW1 : WsOnly W1) (hW2 : WsOnly W2)
    (hval : parseVal f (' ' :: (dumpVal d v ++ (W2 ++ braceClose :: rest)))
      = some (v, W2 ++ braceClose :: rest)) :
    parseMembers (f + 1)
        (W1 ++ ('"' :: (escapeChars k.data ++ '"' ::
          (':' :: ' ' :: (dumpVal d v ++ (W2 ++ braceClose :: rest))))))
      = some ([(k, v)], rest) := by
  rw [parseMembers]
  have hq : ∀ l : List Char, skipWs ('"' :: l) = '"' :: l :=
    fun l => skipWs_cons_not_ws l (by decide)
  have hc : ∀ l : List Char, skipWs (':' :: l) = ':' :: l :=
    fun l => skipWs_cons_not_ws l (by decide)
  have hb : ∀ l : List Char, skipWs (braceClose :: l) = braceClose :: l :=
    fun l => skipWs_cons_not_ws l (by decide)
  simp only [skipWs_ws_run W1 hW1, hq, eq_self_iff_true, if_true]
  rw [parseStrBody_escapeChars k.data _ _ (Nat.lt_succ_self _)]
  simp only [hc, eq_self_iff_true, if_true]
  rw [hval]
  simp only [skipWs_ws_run W2 hW2, hb,
    eq_false (by decide : ¬ braceClose = ','), eq_self_iff_true, if_false, if_true,
    string_mk_data]

theorem parseMembers_step_more (f d : Nat) (W1 W2 rest : List Char) (k : String) (v : Json)
    (k2 : String) (v2 : Json) (t2 : JObj) (hW1 : WsOnly W1)
    (hval : parseVal f (' ' :: (dumpVal d v ++
        (',' :: '\n' :: (dumpMembers d (JObj.cons k2 v2 t2) ++ (W2 ++ braceClose :: rest)))))
      = some (v,
          ',' :: '\n' :: (dumpMembers d (JObj.cons k2 v2 t2) ++ (W2 ++ braceClose :: rest))))
    (hrec : parseMembers f
        ('\n' :: (dumpMembers d (JObj.cons k2 v2 t2) ++ (W2 ++ braceClose :: rest)))
      = some (JObj.toPairs (JObj.cons k2 v2 t2), rest)) :
    parseMembers (f + 1)
        (W1 ++ ('"' :: (escapeChars k.data ++ '"' ::
          (':' :: ' ' :: (dumpVal d v ++
            (',' :: '\n' :: (dumpMembers d (JObj.cons k2 v2 t2) ++ (W2 ++ braceClose :: rest))))))))
      = some ((k, v) :: JObj.toPairs (JObj.cons k2 v2 t2), rest) := by
  rw [parseMembers]
  have hq : ∀ l : List Char, skipWs ('"' :: l) = '"' :: l :=
    fun l => skipWs_cons_not_ws l (by decide)
  have hc : ∀ l : List Char, skipWs (':' :: l) = ':' :: l :=
    fun l => skipWs_cons_not_ws l (by decide)
  have hm : ∀ l : List Char, skipWs (',' :: l) = ',' :: l :=
    fun l => skipWs_cons_not_ws l (by decide)
  simp only [skipWs_ws_run W1 hW1, hq, eq_self_iff_true, if_true]
  rw [parseStrBody_escapeChars k.data _ _ (Nat.lt_succ_self _)]
  simp only [hc, eq_self_iff_true, if_true]
  rw [hval]
  simp only [hm, eq_self_iff_true, if_true, hrec, string_mk_data]

theorem headNotDigitB_cons (c : Char) (l : List Char) (h : isDigitB c = false) :
    headNotDigitB (c :: l) = true := by
  simp [headNotDigitB, h]

mutual
theorem parseVal_dump : ∀ (v : Json) (d : Nat) (W rest : List Char) (f : Nat),
    WsOnly W → wfV v = true → needV v ≤ f → headNotDigitB rest = true →
    parseVal f (W ++ dumpVal d v ++ rest) = some (v, rest)
  | Json.null, d, W, rest, f, hW, _, hneed, _ => by
    cases f with
    | zero => simp [needV] at hneed
    | succ f2 => exact parseVal_step_null f2 d W rest hW
  | Json.bool b, d, W, rest, f, hW, _, hneed, _ => by
    cases f with
    | zero => simp [needV] at hneed
    | succ f2 => exact parseVal_step_bool f2 d W rest b hW
  | Json.num n, d, W, rest, f, hW, _, hneed, hrest => by
    cases f with
    | zero => simp [needV] at hneed
    | succ f2 => exact parseVal_step_num f2 d W rest n hW hrest
  | Json.str s, d, W, rest, f, hW, _, hneed, _ => by
    cases f with
    | zero => simp [needV] at hneed
    | succ f2 => exact parseVal_step_str f2 d W rest s hW
  | Json.arr JArr.nil, d, W, rest, f, hW, _, hneed, _ => by
    cases f with
    | zero => simp [needV] at hneed
    | succ f2 => exact parseVal_step_arrnil f2 d W rest hW
  | Json.obj JObj.nil, d, W, rest, f, hW, _, hneed, _ => by
    cases f with
    | zero => simp [needV] at hneed
    | succ f2 => exact parseVal_step_objnil f2 d W rest hW
  | Json.arr (JArr.cons x t), d, W, rest, f, hW, hwf, hneed, _ => by
    cases f with
    | zero => simp [needV] at hneed
    | succ f2 =>
      have hwf2 : wfA (JArr.cons x t) = true := by simpa [wfV] using hwf
      simp only [wfA, Bool.and_eq_true] at hwf2
      have hneed2 : needI (JArr.cons x t) ≤ f2 := by
        simp only [needV] at hneed
        omega
      have hitems := parseItems_dump x t (d + 1) [] ('\n' :: indentChars d) rest f2
        wsOnly_nil (wsOnly_newline_indent d) hwf2.1 hwf2.2 hneed2
      apply parseVal_step_arr f2 d W rest x t hW
      simpa using hitems
  | Json.obj (JObj.cons k v t), d, W, rest, f, hW, hwf, hneed, _ => by
    cases f with
    | zero => simp [needV] at hneed
    | succ f2 =>
      have hwf2 : wfO (JObj.cons k v t) = true := by simpa [wfV] using hwf
      have hneed2 : needM (JObj.cons k v t) ≤ f2 := by
        simp only [needV] at hneed
        omega
      have hmem := parseMembers_dump k v t (d + 1) [] ('\n' :: indentChars d) rest f2
        wsOnly_nil (wsOnly_newline_indent d) hwf2 hneed2
      apply parseVal_step_obj f2 d W rest k v t hW hwf2
      simpa using hmem
termination_by v _ _ _ _ _ _ _ _ => sizeJ v
decreasing_by all_goals (simp [sizeJ, sizeA, sizeO]; try omega)
theorem parseItems_dump : ∀ (x : Json) (t : JArr) (d : Nat) (W1 W2 rest : List Char) (f : Nat),
    WsOnly W1 → WsOnly W2 → wfV x = true → wfA t = true → needI (JArr.cons x t) ≤ f →
    parseItems f (W1 ++ dumpVal d x ++ (dumpItemsTail d t ++ (W2 ++ ']' :: rest)))
      = some (JArr.cons x t, rest)
  | x, JArr.nil, d, W1, W2, rest, f, hW1, hW2, hwfx, _, hneed => by
    cases f with
    | zero => simp [needI] at hneed
    | succ f2 =>
      have hval := parseVal_dump x d W1 (W2 ++ ']' :: rest) f2 hW1 hwfx
        (by simp only [needI] at hneed; omega)
        (headNotDigitB_ws_cons W2 hW2 ']' (by decide) rest)
      have hstep := parseItems_step_last f2 d W1 W2 rest x hW2 hval
      simpa [dumpItemsTail] using hstep
  | x, JArr.cons y t2, d, W1, W2, rest, f, hW1, hW2, hwfx, hwft, hneed => by
    cases f with
    | zero => simp [needI] at hneed
    | succ f2 =>
      simp only [wfA, Bool.and_eq_true] at hwft
      have hval := parseVal_dump x d W1
        (',' :: '\n' :: (dumpItems d (JArr.cons y t2) ++ (W2 ++ ']' :: rest))) f2 hW1 hwfx
        (by simp only [needI] at hneed; omega)
        (headNotDigitB_cons ',' _ (by decide))
      have hr := parseItems_dump y t2 d ('\n' :: indentChars d) W2 rest f2
        (wsOnly_newline_indent d) hW2 hwft.1 hwft.2
        (by simp only [needI] at hneed; omega)
      have hrec : parseItems f2 ('\n' :: (dumpItems d (JArr.cons y t2) ++ (W2 ++ ']' :: rest)))
          = some (JArr.cons y t2, rest) := by
        rw [dumpItems_eq]
        simpa using hr
      have hstep := parseItems_step_more f2 d W1 W2 rest x y t2 hval hrec
      simpa [dumpItemsTail] using hstep
termination_by x t _ _ _ _ _ _ _ _ _ _ => sizeJ x + sizeA t
decreasing_by all_goals (simp [sizeJ, sizeA, sizeO]; try omega)
theorem parseMembers_dump : ∀ (k : String) (v : Json) (t : JObj) (d : Nat)
    (W1 W2 rest : List Char) (f : Nat),
    WsOnly W1 → WsOnly W2 → wfO (JObj.cons k v t) = true → needM (JObj.cons k v t) ≤ f →
    parseMembers f (W1 ++ ('"' :: (escapeChars k.data ++ '"' ::
        (':' :: ' ' :: (dumpVal d v ++ (dumpMembersTail d t ++ (W2 ++ braceClose :: rest)))))))
      = some (JObj.toPairs (JObj.cons k v t), rest)
  | k, v, JObj.nil, d, W1, W2, rest, f, hW1, hW2, hwf, hneed => by
    cases f with
    | zero => simp [needM] at hneed
    | succ f2 =>
      simp only [wfO, Bool.and_eq_true] at hwf
      have hval := parseVal_dump v d [' '] (W2 ++ braceClose :: rest) f2
        (by intro c hc; simp at hc; subst hc; rfl) hwf.1.2
        (by simp only [needM] at hneed; omega)
        (headNotDigitB_ws_cons W2 hW2 braceClose (by decide) rest)
      have hstep := parseMembers_step_last f2 d W1 W2 rest k v hW1 hW2 (by simpa using hval)
      simpa [dumpMembersTail, JObj.toPairs] using hstep
  | k, v, JObj.cons k2 v2 t2, d, W1, W2, rest, f, hW1, hW2, hwf, hneed => by
    cases f with
    | zero => simp [needM] at hneed
    | succ f2 =>
      have hwfparts : wfV v = true ∧ wfO (JObj.cons k2 v2 t2) = true := by
        simp only [wfO, Bool.and_eq_true] at hwf ⊢
        exact ⟨hwf.1.2, hwf.2⟩
      have hval := parseVal_dump v d [' ']
        (',' :: '\n' :: (dumpMembers d (JObj.cons k2 v2 t2) ++ (W2 ++ braceClose :: rest))) f2
        (by intro c hc; simp at hc; subst hc; rfl) hwfparts.1
        (by simp only [needM] at hneed; omega)
        (headNotDigitB_cons ',' _ (by decide))
      have hr := parseMembers_dump k2 v2 t2 d ('\n' :: indentChars d) W2 rest f2
        (wsOnly_newline_indent d) hW2 hwfparts.2
        (by simp only [needM] at hneed; omega)
      have hrec : parseMembers f2
          ('\n' :: (dumpMembers d (JObj.cons k2 v2 t2) ++ (W2 ++ braceClose :: rest)))
          = some (JObj.toPairs (JObj.cons k2 v2 t2), rest) := by
        rw [dumpMembers_eq]
        simpa [dumpStr] using hr
      have hstep := parseMembers_step_more f2 d W1 W2 rest k v k2 v2 t2 hW1
        (by simpa using hval) hrec
      simpa [dumpMembersTail, JObj.toPairs] using hstep
termination_by _ v t _ _ _ _ _ _ _ _ _ => sizeJ v + sizeO t
decreasing_by all_goals (simp [sizeJ, sizeA, sizeO]; try omega)
end

theorem natDigitsAux_len_pos : ∀ (f n : Nat), 1 ≤ (natDigitsAux (f + 1) n).length := by
  intro f n
  simp only [natDigitsAux]
  split <;> simp

theorem intChars_len_pos (n : Int) : 1 ≤ (intChars n).length := by
  simp only [intChars, natDigits]
  split
  · simp
  · exact natDigitsAux_len_pos _ _

mutual
theorem needV_le_dump : ∀ (v : Json) (d : Nat), needV v ≤ (dumpVal d v).length
  | Json.null, d => by simp [needV, dumpVal]
  | Json.bool b, d => by cases b <;> simp [needV, dumpVal]
  | Json.num n, d => by
    simp only [needV, dumpVal]
    exact intChars_len_pos n
  | Json.str s, d => by simp [needV, dumpVal, dumpStr]
  | Json.arr JArr.nil, d => by simp [needV, dumpVal]
  | Json.obj JObj.nil, d => by simp [needV, dumpVal]
  | Json.arr (JArr.cons x t), d => by
    have h := needI_le_dump x t (d + 1)
    simp only [needV, dumpVal, List.length_append, List.length_cons] at h ⊢
    omega
  | Json.obj (JObj.cons k v t), d => by
    have h := needM_le_dump k v t (d + 1)
    simp only [needV, dumpVal, List.length_append, List.length_cons] at h ⊢
    omega
termination_by v _ => sizeJ v
decreasing_by all_goals (simp [sizeJ, sizeA, sizeO]; try omega)
theorem needI_le_dump : ∀ (x : Json) (t : JArr) (d : Nat),
    needI (JArr.cons x t) ≤ 1 + (dumpItems d (JArr.cons x t)).length
  | x, JArr.nil, d => by
    have h := needV_le_dump x d
    simp only [needI, dumpItems, List.length_append]
    omega
  | x, JArr.cons y t2, d => by
    have h1 := needV_le_dump x d
    have h2 := needI_le_dump y t2 d
    simp only [needI, dumpItems, List.length_append, List.length_cons] at h2 ⊢
    omega
termination_by x t _ => sizeJ x + sizeA t
decreasing_by all_goals (simp [sizeJ, sizeA, sizeO]; try omega)
theorem needM_le_dump : ∀ (k : String) (v : Json) (t : JObj) (d : Nat),
    needM (JObj.cons k v t) ≤ 1 + (dumpMembers d (JObj.cons k v t)).length
  | k, v, JObj.nil, d => by
    have h := needV_le_dump v d
    simp only [needM, dumpMembers, dumpStr, List.length_append, List.length_cons]
    omega
  | k, v, JObj.cons k2 v2 t2, d => by
    have h1 := needV_le_dump v d
    have h2 := needM_le_dump k2 v2 t2 d
    simp only [needM, dumpMembers, dumpStr, List.length_append, List.length_cons] at h2 ⊢
    omega
termination_by _ v t _ => sizeJ v + sizeO t
decreasing_by all_goals (simp [sizeJ, sizeA, sizeO]; try omega)
end

/-- Serialize-then-parse identity for any duplicate-key-free value. -/
theorem parse_dumps (v : Json) (h : wfV v = true) : Json.parse (Json.dumps v) = some v := by
  have hmain := parseVal_dump v 0 [] [] (4 * (dumpVal 0 v).length + 16) wsOnly_nil h
    (Nat.le_trans (needV_le_dump v 0) (by omega)) (by decide)
  simp only [List.nil_append, List.append_nil] at hmain
  have hdata : (Json.dumps v).data = dumpVal 0 v := rfl
  rw [Json.parse, hdata, hmain]
  simp [skipWs]

theorem wfV_findingToJson (f : Finding) : wfV (Finding.toJson f) = true := by
  rcases f with ⟨c, sv, t, d, dt, src, u⟩
  cases dt <;> cases src <;> cases u <;>
    simp [Finding.toJson, optStrField, wfV, wfO, wfA, keyMemB]

theorem wfA_strList : ∀ l : List String, wfA (JArr.ofList (l.map Json.str)) = true
  | [] => rfl
  | s :: t => by simp [JArr.ofList, wfA, wfV, wfA_strList t]

theorem wfA_findings : ∀ l : List Finding, wfA (JArr.ofList (l.map Finding.toJson)) = true
  | [] => rfl
  | f :: t => by simp [JArr.ofList, wfA, wfV_findingToJson f, wfA_findings t]

theorem wf_resultToJson (r : ScreeningResult) : wfV (ScreeningResult.toJson r) = true := by
  simp [ScreeningResult.toJson, JObj.ofList, wfV, wfO, wfA, keyMemB,
    wfA_findings, wfA_strList]

theorem finding_fromJson_toJson (f : Finding) : Finding.fromJson (Finding.toJson f) = some f := by
  rcases f with ⟨c, sv, t, d, dt, src, u⟩
  cases dt <;> cases src <;> cases u <;>
    simp [Finding.toJson, Finding.fromJson, optStrField, reqStr, optStr, JObj.lookup]

theorem findingsFrom_ofList :
    ∀ l : List Finding, findingsFrom (JArr.ofList (l.map Finding.toJson)) = some l
  | [] => rfl
  | f :: t => by
    simp [JArr.ofList, findingsFrom, finding_fromJson_toJson f, findingsFrom_ofList t]

theorem strListFrom_ofList :
    ∀ l : List String, strListFrom (JArr.ofList (l.map Json.str)) = some l
  | [] => rfl
  | s :: t => by simp [JArr.ofList, strListFrom, strListFrom_ofList t]

theorem result_fromJson_toJson (r : ScreeningResult) :
    ScreeningResult.fromJson (ScreeningResult.toJson r) = some r := by
  rcases r with ⟨e, ts, st, rl, sm, fs, rs⟩
  simp [ScreeningResult.toJson, ScreeningResult.fromJson, JObj.ofList, reqStr,
    JObj.lookup, findingsFrom_ofList, strListFrom_ofList]

set_option maxRecDepth 16384 in
/-- C9 counterexample: the serialized form of a screening result stores the
search-mode field under the key `searchType`, not `searchMode` as the claim
says: the exported text of a concrete result contains the substring
`searchType` and does not contain `searchMode`. -/
theorem c9_counterexample :
    containsSub "searchType".data (serialize_result
      ⟨"Acme Corp", "2024-01-01T00:00:00", "comprehensive", "LOW", "ok", [],
        ["Monitor"]⟩).data = true ∧
    containsSub "searchMode".data (serialize_result
      ⟨"Acme Corp", "2024-01-01T00:00:00", "comprehensive", "LOW", "ok", [],
        ["Monitor"]⟩).data = false := by
  constructor <;> decide

/-- C9 amended: with the search-mode field named `searchType` (the code's
name), the round trip holds: serializing any `ScreeningResult` through
`export_results` (= `json.dumps(·, indent=2)`) and deserializing through
`json.loads` reproduces a value equal to the original in every field,
including results with empty findings and recommendations sequences. -/
theorem c9_roundtrip (r : ScreeningResult) :
    deserialize_result (serialize_result r) = some r := by
  have hp := parse_dumps (ScreeningResult.toJson r) (wf_resultToJson r)
  simp [deserialize_result, serialize_result, export_results, hp,
    result_fromJson_toJson r]
